import Mathlib

/-!
# Verification development for the EPUB access layer (`parser/epub`)

The Go package `epub` opens an EPUB publication from a zip archive or from a
directory and resolves its documents.  This file embeds `epub.go` and
`container.go` in Lean and proves properties of the embedding.

Conventions of the embedding.

* A Go `error` is identified with its message (`error := String`); the nil
  error is `none`.
* A Go function returning `(x, err)` returns a pair of options when both may
  be nil independently, or an `Except` when exactly one of them is nil.
* A run-time panic (nil pointer dereference) is the `none` of the outer
  `Option` of the `Go` monad.
* The state threaded through `Go` is the list of file names handed to
  `Epub.open`, oldest first: the fetches performed so far.
* Closing a stream (`defer fd.Close()`) has no effect the package observes and
  is left out; closing the archive handle is modelled, by the `closed` flag of
  the handle.
* Everything the package takes from outside (the file system, the zip reader,
  the XML and JSON decoders, the schema records declared in other files) is a
  parameter.
-/

/-! ## Go standard library: package `path` -/

namespace path

/-- The inner loop of `path.Clean` that backs up over the last element:
`for out.w > dotdot && out.index(out.w) != '/' { out.w-- }`.  The buffer is
kept reversed, so its head is `out[w-1]`, and `removed` is `out[w]`. -/
def backtrack (dotdot : Nat) : Char → List Char → List Char
  | _, [] => []
  | removed, c :: rev =>
    if (c :: rev).length > dotdot ∧ removed ≠ '/' then backtrack dotdot c rev
    else c :: rev

/-- The copy loop of the default case of `path.Clean`:
`for ; r < n && path[r] != '/'; r++ { out.append(path[r]) }`.  Returns the
unread input and the (reversed) buffer. -/
def copyElem : List Char → List Char → List Char × List Char
  | [], rev => ([], rev)
  | c :: rest, rev => if c = '/' then (c :: rest, rev) else copyElem rest (c :: rev)

/-- The main loop `for r < n { switch ... }` of `path.Clean`.  `inp` is
`path[r:]`, `rev` is the reversed output buffer `out[:w]`, and the first
argument bounds the number of iterations. -/
def cleanLoop (rooted : Bool) : Nat → List Char → List Char → Nat → List Char
  | 0, _, rev, _ => rev
  | _ + 1, [], rev, _ => rev
  | fuel + 1, c :: rest, rev, dotdot =>
    if c = '/' then
      -- empty path element
      cleanLoop rooted fuel rest rev dotdot
    else if c = '.' ∧ (rest = [] ∨ rest.head? = some '/') then
      -- . element
      cleanLoop rooted fuel rest rev dotdot
    else if c = '.' ∧ rest.head? = some '.' ∧
        (rest.tail = [] ∨ rest.tail.head? = some '/') then
      -- .. element: remove to last /
      if rev.length > dotdot then
        match rev with
        | [] => cleanLoop rooted fuel rest.tail rev dotdot
        | last :: rev1 => cleanLoop rooted fuel rest.tail (backtrack dotdot last rev1) dotdot
      else if ¬ rooted then
        let rev1 := if rev.length > 0 then '/' :: rev else rev
        let rev2 := '.' :: '.' :: rev1
        cleanLoop rooted fuel rest.tail rev2 rev2.length
      else
        cleanLoop rooted fuel rest.tail rev dotdot
    else
      -- real path element: add slash if needed, then copy it
      let rev1 :=
        if (rooted ∧ rev.length ≠ 1) ∨ (¬ rooted ∧ rev.length ≠ 0) then '/' :: rev else rev
      let (inp1, rev2) := copyElem (c :: rest) rev1
      cleanLoop rooted fuel inp1 rev2 dotdot

/-- Go `path.Clean`: the shortest path name equivalent to `p` by purely
lexical processing. -/
def Clean (p : String) : String :=
  if p = "" then "."
  else
    let rooted : Bool := p.data.head? = some '/'
    let out :=
      if rooted then cleanLoop rooted (p.data.length + 1) p.data.tail ['/'] 1
      else cleanLoop rooted (p.data.length + 1) p.data [] 0
    if out.length = 0 then "." else String.mk out.reverse

/-- The `dir` half of Go `path.Split`: everything up to and including the last
slash.  The argument and the result are reversed. -/
def splitDirRev : List Char → List Char
  | [] => []
  | c :: rev => if c = '/' then c :: rev else splitDirRev rev

/-- Go `path.Dir`: all but the last element of `p`, cleaned. -/
def Dir (p : String) : String :=
  Clean (String.mk (splitDirRev p.data.reverse).reverse)

/-- The loop of Go `path.Join` that concatenates the non-empty leading
elements with slashes into `buf`. -/
def joinLoop : List String → String → String
  | [], buf => buf
  | e :: rest, buf =>
    if buf.length > 0 ∨ e ≠ "" then
      joinLoop rest ((if buf.length > 0 then buf ++ "/" else buf) ++ e)
    else joinLoop rest buf

/-- Go `path.Join`: joins the elements with slashes and cleans the result;
all-empty input gives the empty string. -/
def Join (elem : List String) : String :=
  if (elem.map String.length).sum = 0 then "" else Clean (joinLoop elem "")

end path

/-! ## Data model -/

namespace epub

/-- A Go `error` value, identified with its message. -/
abbrev error := String

/-- An `io.ReadCloser`: the bytes it yields, and the error (if any) that ends
the reading instead of a clean end of file. -/
structure ReadCloser where
  data : List UInt8
  readErr : Option error
deriving DecidableEq, Repr

/-- Go `ioutil.ReadAll`: everything read, with the read error if there was
one.  (A nil byte slice is the empty list.) -/
def ioutil.ReadAll (fd : ReadCloser) : List UInt8 × Option error := (fd.data, fd.readErr)

/-- A `*zip.File`: an entry of the archive.  `body` is what `Open` gives while
the archive is open. -/
structure ZipFile where
  Name : String
  body : Except error ReadCloser

/-- A `*zip.ReadCloser`: the name of the archive file it was opened from, its
entry table, and whether `Close` has been called on it. -/
structure ZipReadCloser where
  name : String
  File : List ZipFile
  closed : Bool

/-- Go `(*zip.File).Open`: reads the entry through the archive handle `rc` it
belongs to, so it fails once that handle is closed. -/
def ZipFile.Open (rc : ZipReadCloser) (f : ZipFile) : Except error ReadCloser :=
  if rc.closed then Except.error ("read " ++ rc.name ++ ": file already closed") else f.body

/-- Go `(*zip.ReadCloser).Close`. -/
def ZipReadCloser.Close (rc : ZipReadCloser) : ZipReadCloser := { rc with closed := true }

/-- The operating system as the package sees it: `os.Open`, `zip.OpenReader`
(giving the entry table) and `filepath.Separator`. -/
structure OS where
  Open : String → Except error ReadCloser
  zipOpenReader : String → Except error (List ZipFile)
  Separator : Char

/-- Rootfile root file (`container.go`).  The Go field `Type` (attribute
`media-type`) is named `MediaType` here. -/
structure Rootfile where
  Path : String
  MediaType : String
  Version : String
deriving DecidableEq, Repr

/-- Container META-INF/container.xml file (`container.go`). -/
structure Container where
  Rootfile : Rootfile
  Rootfiles : List epub.Rootfile
deriving DecidableEq, Repr

/-- Modelled from the spec: the manifest item record of the package document
(declared outside `epub.go` and `container.go`): id, href relative to the
rootfile directory, media type. -/
structure Manifest where
  ID : String
  Href : String
  MediaType : String
deriving DecidableEq, Repr

/-- Modelled from the spec: the spine record of the package document (declared
outside `epub.go` and `container.go`): the ordered item references and the
manifest id of the navigation resource. -/
structure Spine where
  Items : List String
  Toc : String
deriving DecidableEq, Repr

/-- The schema records that the package declares in other files and that
`epub.go` never looks into, each with its zero value: the navigation document,
the encryption metadata, the license metadata, the synchronized-media document
and the package metadata. -/
structure Schema where
  Ncx : Type
  Encryption : Type
  LCP : Type
  SMIL : Type
  Metadata : Type
  zeroNcx : Ncx
  zeroEncryption : Encryption
  zeroLCP : LCP
  zeroSMIL : SMIL
  zeroMetadata : Metadata

/-- Modelled from the spec: the package document record (declared outside
`epub.go` and `container.go`): manifest, spine and opaque metadata. -/
structure Opf (S : Schema) where
  Metadata : S.Metadata
  Manifest : List Manifest
  Spine : Spine

/-- Epub represent epub data. -/
structure Epub (S : Schema) where
  Ncx : S.Ncx
  NcxPath : String
  Opf : Opf S
  Container : Container
  Encryption : S.Encryption
  LCP : S.LCP
  zipFd : Option ZipReadCloser
  directory : String

/-- The zero value of `Rootfile`. -/
def Rootfile.zero : Rootfile := { Path := "", MediaType := "", Version := "" }

/-- The zero value of `Container`. -/
def Container.zero : Container := { Rootfile := Rootfile.zero, Rootfiles := [] }

/-- The block `if len(Rootfiles) > 0 { Rootfile = Rootfiles[0] }` that both
construction functions run on the decoded container. -/
def Container.selectRootfile (c : Container) : Container :=
  match c.Rootfiles with
  | rootfile :: _ => { c with Rootfile := rootfile }
  | [] => c

/-- The zero value of `Opf`. -/
def Opf.zero (S : Schema) : Opf S :=
  { Metadata := S.zeroMetadata, Manifest := [], Spine := { Items := [], Toc := "" } }

/-- The zero value of `Epub`, as in `Epub{}`. -/
def Epub.zero (S : Schema) : Epub S :=
  { Ncx := S.zeroNcx, NcxPath := "", Opf := Opf.zero S, Container := Container.zero,
    Encryption := S.zeroEncryption, LCP := S.zeroLCP, zipFd := none, directory := "" }

/-- What `Decode(v)` does for a target of type `α`: given the stream and the
value `v` points to, the value left in `v` and the error returned. -/
abbrev Decoder (α : Type) := ReadCloser → α → α × Option error

/-- The decoders of `encoding/xml` and `encoding/json` at the target types the
package uses. -/
structure Codec (S : Schema) where
  xmlContainer : Decoder Container
  xmlOpf : Decoder (Opf S)
  xmlEncryption : Decoder S.Encryption
  xmlNcx : Decoder S.Ncx
  xmlSMIL : Decoder S.SMIL
  jsonLCP : Decoder S.LCP

/-- The effects of the Go code: the state is the list of file names handed to
`Epub.open` so far, and `none` is a panic. -/
abbrev Go := StateT (List String) Option

/-! ## The operations of `epub.go` -/

/-- The loop of `Epub.open` over the entry table:
`for _, f := range epub.zipFd.File { if f.Name == filename { return f.Open() } }`
followed by the `fmt.Errorf` after it. -/
def Epub.openZip (zipFd : ZipReadCloser) (filename : String) :
    List ZipFile → Except error ReadCloser
  | [] => Except.error ("can't find file or directory " ++ filename)
  | f :: rest => if f.Name = filename then f.Open zipFd else Epub.openZip zipFd filename rest

/-- The method `Epub.open`: the resource store.  A directory-backed object
asks the file system, an archive-backed one scans the entry table; a nil
`zipFd` with an empty `directory` is a nil pointer dereference. -/
def Epub.open {S : Schema} (os : OS) (epub : Epub S) (filename : String) :
    Go (Except error ReadCloser) := do
  modify (fun fetched => fetched ++ [filename])
  if epub.directory ≠ "" then
    let filenameEpub :=
      path.Join [path.Dir (epub.directory ++ String.singleton os.Separator), filename]
    return os.Open filenameEpub
  else
    match epub.zipFd with
    | none => failure
    | some zipFd => return Epub.openZip zipFd filename zipFd.File

/-- The method `Epub.filename`. -/
def Epub.filename {S : Schema} (epub : Epub S) (name : String) : String :=
  path.Join [path.Dir epub.Container.Rootfile.Path, name]

/-- Open open resource file. -/
def Epub.Open {S : Schema} (os : OS) (epub : Epub S) (filepath : String) :
    Go (Except error ReadCloser) :=
  epub.open os (epub.filename filepath)

/-- RawOpen open resource file without filepath transform. -/
def Epub.RawOpen {S : Schema} (os : OS) (epub : Epub S) (filepath : String) :
    Go (Except error ReadCloser) :=
  epub.open os filepath

/-- Close close file reader.  A nil `zipFd` is a nil pointer dereference. -/
def Epub.Close {S : Schema} (epub : Epub S) : Go (Epub S) :=
  match epub.zipFd with
  | none => failure
  | some zipFd => return { epub with zipFd := some zipFd.Close }

/-- The method `Epub.parseXML`, for a target of type `α` decoded by `dec`:
returns the value left in the target and the error.  A failed open returns
nil and leaves the target alone. -/
def Epub.parseXML {S : Schema} {α : Type} (os : OS) (epub : Epub S) (dec : Decoder α)
    (filename : String) (v : α) : Go (α × Option error) := do
  match ← epub.open os filename with
  | Except.error _ => return (v, none)
  | Except.ok fd => return dec fd v

/-- The method `Epub.parseJSON`, for a target of type `α` decoded by `dec`. -/
def Epub.parseJSON {S : Schema} {α : Type} (os : OS) (epub : Epub S) (dec : Decoder α)
    (filename : String) (v : α) : Go (α × Option error) := do
  match ← epub.open os filename with
  | Except.error _ => return (v, none)
  | Except.ok fd => return dec fd v

/-- GetData return raw data from file. -/
def Epub.GetData {S : Schema} (os : OS) (epub : Epub S) (filename : String) :
    Go (List UInt8 × Option error) := do
  match ← epub.open os filename with
  | Except.error _ => return ([], none)
  | Except.ok fd => return ioutil.ReadAll fd

/-- ZipReader return the internal file descriptor. -/
def Epub.ZipReader {S : Schema} (epub : Epub S) : Option ZipReadCloser := epub.zipFd

/-- GetSMIL parse and return SMIL structure. -/
def Epub.GetSMIL {S : Schema} (os : OS) (K : Codec S) (epub : Epub S) (ressource : String) :
    Go S.SMIL := do
  let (smil, _) ← epub.parseXML os K.xmlSMIL ressource S.zeroSMIL
  return smil

/-- The loop of `openEpub` over the manifest, with the `return &epb, nil` that
follows it: the first item whose id is the spine's `Toc` gives the navigation
document and its path; the error of that decode is dropped
(`// return nil, errToc`). -/
def openEpub.rangeManifest {S : Schema} (os : OS) (K : Codec S) (epb : Epub S) :
    List Manifest → Go (Option (Epub S) × Option error)
  | [] => return (some epb, none)
  | manf :: rest =>
    if manf.ID = epb.Opf.Spine.Toc then do
      let epb := { epb with NcxPath := epb.filename manf.Href }
      let (ncx, _) ← epb.parseXML os K.xmlNcx (epb.filename manf.Href) epb.Ncx
      let epb := { epb with Ncx := ncx }
      return (some epb, none)
    else openEpub.rangeManifest os K epb rest

/-- The function `openEpub`: the construction pipeline over an archive. -/
def openEpub {S : Schema} (os : OS) (K : Codec S) (zipFile : Option ZipReadCloser) :
    Go (Option (Epub S) × Option error) := do
  let epb : Epub S := { Epub.zero S with zipFd := zipFile }
  let (container, errCont) ← epb.parseXML os K.xmlContainer "META-INF/container.xml" epb.Container
  let epb := { epb with Container := container }
  if errCont ≠ none then
    return (none, errCont)
  else
    let epb := { epb with Container := epb.Container.selectRootfile }
    let (opf, errOpf) ← epb.parseXML os K.xmlOpf epb.Container.Rootfile.Path epb.Opf
    let epb := { epb with Opf := opf }
    if errOpf ≠ none then
      return (none, errOpf)
    else
      let (encryption, _) ←
        epb.parseXML os K.xmlEncryption "META-INF/encryption.xml" epb.Encryption
      let epb := { epb with Encryption := encryption }
      let (lcp, _) ← epb.parseJSON os K.jsonLCP "META-INF/license.lcpl" epb.LCP
      let epb := { epb with LCP := lcp }
      openEpub.rangeManifest os K epb epb.Opf.Manifest

/-- OpenEpub open and parse epub.  The deferred `zipFile.Close()` runs when the
function returns; the returned object holds a pointer to that same handle, so
the handle it owns is the closed one. -/
def OpenEpub {S : Schema} (os : OS) (K : Codec S) (fn : String) :
    Go (Option (Epub S) × Option error) := do
  match os.zipOpenReader fn with
  | Except.error err => return (none, some err)
  | Except.ok entries =>
    let zipFile : ZipReadCloser := { name := fn, File := entries, closed := false }
    let (epb, err) ← openEpub os K (some zipFile)
    -- defer zipFile.Close()
    return (epb.map (fun e => { e with zipFd := e.zipFd.map ZipReadCloser.Close }), err)

/-- OpenEpubReader open and parse epub. -/
def OpenEpubReader {S : Schema} (os : OS) (K : Codec S) (zipFile : Option ZipReadCloser) :
    Go (Option (Epub S) × Option error) :=
  openEpub os K zipFile

/-- The loop of `OpenDir` over the manifest, with the `return &epb, nil` that
follows it: the first item whose id is the spine's `Toc` gives the navigation
document; the error of that decode is returned. -/
def OpenDir.rangeManifest {S : Schema} (os : OS) (K : Codec S) (epb : Epub S) :
    List Manifest → Go (Option (Epub S) × Option error)
  | [] => return (some epb, none)
  | manf :: rest =>
    if manf.ID = epb.Opf.Spine.Toc then do
      let (ncx, errToc) ← epb.parseXML os K.xmlNcx (epb.filename manf.Href) epb.Ncx
      let epb := { epb with Ncx := ncx }
      if errToc ≠ none then
        return (none, errToc)
      else
        return (some epb, none)
    else OpenDir.rangeManifest os K epb rest

/-- OpenDir open a opf file. -/
def OpenDir {S : Schema} (os : OS) (K : Codec S) (filename : String) :
    Go (Option (Epub S) × Option error) := do
  let epb : Epub S := { Epub.zero S with directory := filename }
  let (container, errCont) ← epb.parseXML os K.xmlContainer "META-INF/container.xml" epb.Container
  let epb := { epb with Container := container }
  if errCont ≠ none then
    return (none, errCont)
  else
    let epb := { epb with Container := epb.Container.selectRootfile }
    let (opf, errOpf) ← epb.parseXML os K.xmlOpf epb.Container.Rootfile.Path epb.Opf
    let epb := { epb with Opf := opf }
    if errOpf ≠ none then
      return (none, errOpf)
    else
      let (encryption, _) ←
        epb.parseXML os K.xmlEncryption "META-INF/encryption.xml" epb.Encryption
      let epb := { epb with Encryption := encryption }
      let (lcp, _) ← epb.parseJSON os K.jsonLCP "META-INF/license.lcpl" epb.LCP
      let epb := { epb with LCP := lcp }
      OpenDir.rangeManifest os K epb epb.Opf.Manifest

/-! ## Vocabulary for the statements -/

/-- The result of `Epub.open` alone, without the record of fetches: `none` is
a panic, `Except.error` a failed open. -/
def Epub.fetch {S : Schema} (os : OS) (epub : Epub S) (filename : String) :
    Option (Except error ReadCloser) :=
  ((epub.open os filename).run []).map Prod.fst

/-- What a construction is given: an archive handle (`openEpub`,
`OpenEpubReader`) or a directory name (`OpenDir`). -/
inductive Source where
  | archive (zipFile : Option ZipReadCloser)
  | dir (filename : String)

/-- The object a construction starts from: `Epub{zipFd: zipFile}` or
`Epub{directory: filename}`. -/
def Source.init (S : Schema) : Source → Epub S
  | Source.archive zipFile => { Epub.zero S with zipFd := zipFile }
  | Source.dir filename => { Epub.zero S with directory := filename }

/-- Whether the construction is the archive one. -/
def Source.isArchive : Source → Bool
  | Source.archive _ => true
  | Source.dir _ => false

/-- What the caller sees of a run: whether an object is returned, and the
error; `none` is a panic. -/
def outcome {S : Schema} (run : Option ((Option (Epub S) × Option error) × List String)) :
    Option (Bool × Option error) :=
  run.map (fun x => (x.1.1.isSome, x.1.2))

/-- The two construction entry points, taken together. -/
def construct {S : Schema} (os : OS) (K : Codec S) : Source → Go (Option (Epub S) × Option error)
  | Source.archive zipFile => openEpub os K zipFile
  | Source.dir filename => OpenDir os K filename

/-! ## Auxiliary definitions for the proofs -/

/-- The store as a function of the two fields `Epub.open` reads. -/
def store (os : OS) (directory : String) (zipFd : Option ZipReadCloser) (filename : String) :
    Option (Except error ReadCloser) :=
  if directory ≠ "" then
    some (os.Open (path.Join [path.Dir (directory ++ String.singleton os.Separator), filename]))
  else zipFd.map (fun z => Epub.openZip z filename z.File)

/-- What `parseXML` and `parseJSON` do with the result of the open. -/
def decodeAt {α : Type} (dec : Decoder α) (r : Except error ReadCloser) (v : α) :
    α × Option error :=
  match r with
  | Except.error _ => (v, none)
  | Except.ok fd => dec fd v

/-- The manifest loop of whichever entry point `src` selects. -/
def rangeManifest {S : Schema} (os : OS) (K : Codec S) (src : Source) (epb : Epub S)
    (l : List Manifest) : Go (Option (Epub S) × Option error) :=
  match src with
  | Source.archive _ => openEpub.rangeManifest os K epb l
  | Source.dir _ => OpenDir.rangeManifest os K epb l

/-- What the manifest loop returns once the navigation resource of the
matching item has been opened with result `rN`. -/
def navResult {S : Schema} (K : Codec S) (src : Source) (epb : Epub S) (m : Manifest)
    (rN : Except error ReadCloser) : Option (Epub S) × Option error :=
  match src with
  | Source.archive _ =>
    (some { epb with NcxPath := epb.filename m.Href,
                     Ncx := (decodeAt K.xmlNcx rN epb.Ncx).1 }, none)
  | Source.dir _ =>
    if (decodeAt K.xmlNcx rN epb.Ncx).2 ≠ none then (none, (decodeAt K.xmlNcx rN epb.Ncx).2)
    else (some { epb with Ncx := (decodeAt K.xmlNcx rN epb.Ncx).1 }, none)

/-! ## A small publication, for concrete evaluation -/

/-- A schema whose opaque records are the raw bytes of their documents. -/
def S0 : Schema :=
  { Ncx := List UInt8, Encryption := List UInt8, LCP := List UInt8, SMIL := List UInt8,
    Metadata := Unit, zeroNcx := [], zeroEncryption := [], zeroLCP := [], zeroSMIL := [],
    zeroMetadata := () }

/-- A stream that yields the given bytes and then a clean end of file. -/
def bytes (data : List UInt8) : ReadCloser := { data := data, readErr := none }

/-- A toy decoder for the opaque records: a document is well formed when it
starts with the byte `<`, and decodes to its bytes. -/
def rawDecoder : Decoder (List UInt8) := fun fd v =>
  if fd.data.head? = some 60 then (fd.data, none) else (v, some "XML syntax error")

/-- A toy codec: a well-formed container lists `OEBPS/content.opf` and then
`alt/other.opf`; a well-formed package has the manifest `chap1`, `ncx`, `ncx`
(a duplicate id), and its spine navigation id is `ncx` when the document is
the two bytes `<p` and `nav` (the id of no item) otherwise. -/
def K0 : Codec S0 :=
  { xmlContainer := fun fd v =>
      if fd.data.head? = some 60 then
        ({ v with Rootfiles :=
            [{ Path := "OEBPS/content.opf", MediaType := "application/oebps-package+xml",
               Version := "1.0" },
             { Path := "alt/other.opf", MediaType := "application/oebps-package+xml",
               Version := "2.0" }] }, none)
      else (v, some "XML syntax error"),
    xmlOpf := fun fd v =>
      if fd.data.head? = some 60 then
        ({ v with
            Manifest :=
              [{ ID := "chap1", Href := "chapter1.xhtml", MediaType := "application/xhtml+xml" },
               { ID := "ncx", Href := "toc.ncx", MediaType := "application/x-dtbncx+xml" },
               { ID := "ncx", Href := "other.ncx", MediaType := "application/x-dtbncx+xml" }],
            Spine := { Items := ["chap1"], Toc := if fd.data = [60, 112] then "ncx" else "nav" } },
          none)
      else (v, some "XML syntax error"),
    xmlEncryption := rawDecoder,
    xmlNcx := rawDecoder,
    xmlSMIL := rawDecoder,
    jsonLCP := rawDecoder }

/-- The entry table of a well-formed archive, with one `chapter1.xhtml` next
to the package document and another at the archive root. -/
def goodEntries : List ZipFile :=
  [{ Name := "mimetype", body := Except.ok (bytes [97]) },
   { Name := "META-INF/container.xml", body := Except.ok (bytes [60, 99]) },
   { Name := "OEBPS/content.opf", body := Except.ok (bytes [60, 112]) },
   { Name := "OEBPS/toc.ncx", body := Except.ok (bytes [60, 110]) },
   { Name := "OEBPS/chapter1.xhtml", body := Except.ok (bytes [60, 49]) },
   { Name := "chapter1.xhtml", body := Except.ok (bytes [60, 50]) },
   { Name := "OEBPS/chapter1.xhtml", body := Except.ok (bytes [60, 51]) }]

/-- The entry table of an archive whose navigation document is malformed. -/
def badNcxEntries : List ZipFile :=
  [{ Name := "META-INF/container.xml", body := Except.ok (bytes [60, 99]) },
   { Name := "OEBPS/content.opf", body := Except.ok (bytes [60, 112]) },
   { Name := "OEBPS/toc.ncx", body := Except.ok (bytes [0]) }]

/-- The entry table of an archive whose container descriptor is malformed. -/
def badContainerEntries : List ZipFile :=
  [{ Name := "META-INF/container.xml", body := Except.ok (bytes [0]) },
   { Name := "OEBPS/content.opf", body := Except.ok (bytes [60, 112]) }]

/-- The entry table of an archive whose package document is malformed. -/
def badOpfEntries : List ZipFile :=
  [{ Name := "META-INF/container.xml", body := Except.ok (bytes [60, 99]) },
   { Name := "OEBPS/content.opf", body := Except.ok (bytes [0]) },
   { Name := "OEBPS/toc.ncx", body := Except.ok (bytes [60, 110]) }]

/-- The entry table of an archive that has a container descriptor and a
package document, but not the navigation resource the package names. -/
def packageOnlyEntries : List ZipFile :=
  [{ Name := "META-INF/container.xml", body := Except.ok (bytes [60, 99]) },
   { Name := "OEBPS/content.opf", body := Except.ok (bytes [60, 112]) },
   { Name := "OEBPS/other.ncx", body := Except.ok (bytes [60, 111]) }]

/-- The entry table of an archive that has a container descriptor and nothing
else. -/
def containerOnlyEntries : List ZipFile :=
  [{ Name := "META-INF/container.xml", body := Except.ok (bytes [60, 99]) }]

/-- The well-formed archive with a malformed encryption document and a
license document added. -/
def drmEntries : List ZipFile :=
  goodEntries ++
    [{ Name := "META-INF/encryption.xml", body := Except.ok (bytes [0]) },
     { Name := "META-INF/license.lcpl", body := Except.ok (bytes [60, 108]) }]

/-- An open handle on an archive `book.epub` with the given entry table. -/
def opened (entries : List ZipFile) : ZipReadCloser :=
  { name := "book.epub", File := entries, closed := false }

/-- A file system with the archive `book.epub`, the directory `book` holding
a publication without navigation resource, the directory `bad` holding one
whose navigation document is malformed, and the directory `pub` holding one
whose navigation document is well formed and whose chapter is not a document
the toy decoders accept. -/
def os0 : OS :=
  { Open := fun name =>
      if name = "pub/META-INF/container.xml" then Except.ok (bytes [60, 99])
      else if name = "pub/OEBPS/content.opf" then Except.ok (bytes [60, 112])
      else if name = "pub/OEBPS/toc.ncx" then Except.ok (bytes [60, 110])
      else if name = "pub/OEBPS/chapter1.xhtml" then Except.ok (bytes [0])
      else if name = "book/META-INF/container.xml" then Except.ok (bytes [60, 99])
      else if name = "book/OEBPS/content.opf" then Except.ok (bytes [60, 113])
      else if name = "bad/META-INF/container.xml" then Except.ok (bytes [60, 99])
      else if name = "bad/OEBPS/content.opf" then Except.ok (bytes [60, 112])
      else if name = "bad/OEBPS/toc.ncx" then Except.ok (bytes [0])
      else Except.error ("open " ++ name ++ ": no such file or directory"),
    zipOpenReader := fun name =>
      if name = "book.epub" then Except.ok goodEntries
      else Except.error ("open " ++ name ++ ": no such file or directory"),
    Separator := '/' }

/-- The file system `os0` with a malformed encryption document and a license
document added to the directory `pub`. -/
def os1 : OS :=
  { os0 with
    Open := fun name =>
      if name = "pub/META-INF/encryption.xml" then Except.ok (bytes [0])
      else if name = "pub/META-INF/license.lcpl" then Except.ok (bytes [60, 108])
      else os0.Open name }

/-- The object that `OpenEpubReader` builds from the well-formed archive. -/
def goodEpub : Epub S0 :=
  { Ncx := [60, 110], NcxPath := "OEBPS/toc.ncx",
    Opf :=
      { Metadata := (),
        Manifest :=
          [{ ID := "chap1", Href := "chapter1.xhtml", MediaType := "application/xhtml+xml" },
           { ID := "ncx", Href := "toc.ncx", MediaType := "application/x-dtbncx+xml" },
           { ID := "ncx", Href := "other.ncx", MediaType := "application/x-dtbncx+xml" }],
        Spine := { Items := ["chap1"], Toc := "ncx" } },
    Container :=
      { Rootfile :=
          { Path := "OEBPS/content.opf", MediaType := "application/oebps-package+xml",
            Version := "1.0" },
        Rootfiles :=
          [{ Path := "OEBPS/content.opf", MediaType := "application/oebps-package+xml",
             Version := "1.0" },
           { Path := "alt/other.opf", MediaType := "application/oebps-package+xml",
             Version := "2.0" }] },
    Encryption := [], LCP := [], zipFd := some (opened goodEntries), directory := "" }

/-- The toy codec with other metadata decoders: the encryption document never
decodes, the license document always does. -/
def K1 : Codec S0 :=
  { K0 with
    xmlEncryption := fun _ v => (v, some "unexpected EOF"),
    jsonLCP := fun fd _ => (fd.data, none) }

/-- What the toy codec decodes a well-formed container descriptor to, before
the primary rootfile is selected. -/
def decodedContainer : Container :=
  { Rootfile := Rootfile.zero, Rootfiles := goodEpub.Container.Rootfiles }

/-! ## Basic facts about the store -/

theorem open_run {S : Schema} (os : OS) (epub : Epub S) (filename : String)
    (t : List String) :
    (epub.open os filename).run t =
      (store os epub.directory epub.zipFd filename).map (fun r => (r, t ++ [filename])) := by
  unfold Epub.open store
  by_cases h : epub.directory = ""
  · cases hz : epub.zipFd <;> simp [h, hz, failure, Alternative.failure, StateT.failure]
    rfl
  · simp [h]

theorem fetch_eq_store {S : Schema} (os : OS) (epub : Epub S) (filename : String) :
    epub.fetch os filename = store os epub.directory epub.zipFd filename := by
  unfold Epub.fetch
  rw [open_run]
  cases store os epub.directory epub.zipFd filename <;> rfl

theorem parseXML_run {S : Schema} {α : Type} (os : OS) (epub : Epub S) (dec : Decoder α)
    (filename : String) (v : α) (t : List String) :
    (epub.parseXML os dec filename v).run t =
      (store os epub.directory epub.zipFd filename).map (fun r =>
        (decodeAt dec r v, t ++ [filename])) := by
  simp only [Epub.parseXML, StateT.run_bind, open_run]
  cases store os epub.directory epub.zipFd filename with
  | none => rfl
  | some r => cases r <;> rfl

theorem parseJSON_run {S : Schema} {α : Type} (os : OS) (epub : Epub S) (dec : Decoder α)
    (filename : String) (v : α) (t : List String) :
    (epub.parseJSON os dec filename v).run t =
      (store os epub.directory epub.zipFd filename).map (fun r =>
        (decodeAt dec r v, t ++ [filename])) := by
  simp only [Epub.parseJSON, StateT.run_bind, open_run]
  cases store os epub.directory epub.zipFd filename with
  | none => rfl
  | some r => cases r <;> rfl


/-- The construction pipeline, fetch by fetch. -/
theorem construct_run {S : Schema} (os : OS) (K : Codec S) (src : Source) (t : List String) :
    (construct os K src).run t =
      ((src.init S).fetch os "META-INF/container.xml").bind fun rC =>
        if (decodeAt K.xmlContainer rC Container.zero).2 ≠ none then
          some ((none, (decodeAt K.xmlContainer rC Container.zero).2),
            t ++ ["META-INF/container.xml"])
        else
          ((src.init S).fetch os
            (decodeAt K.xmlContainer rC Container.zero).1.selectRootfile.Rootfile.Path).bind
          fun rO =>
            if (decodeAt K.xmlOpf rO (Opf.zero S)).2 ≠ none then
              some ((none, (decodeAt K.xmlOpf rO (Opf.zero S)).2),
                t ++ ["META-INF/container.xml",
                  (decodeAt K.xmlContainer rC Container.zero).1.selectRootfile.Rootfile.Path])
            else
              ((src.init S).fetch os "META-INF/encryption.xml").bind fun rE =>
                ((src.init S).fetch os "META-INF/license.lcpl").bind fun rL =>
                  (rangeManifest os K src
                    { src.init S with
                      Container := (decodeAt K.xmlContainer rC Container.zero).1.selectRootfile,
                      Opf := (decodeAt K.xmlOpf rO (Opf.zero S)).1,
                      Encryption := (decodeAt K.xmlEncryption rE S.zeroEncryption).1,
                      LCP := (decodeAt K.jsonLCP rL S.zeroLCP).1 }
                    (decodeAt K.xmlOpf rO (Opf.zero S)).1.Manifest).run
                    (t ++ ["META-INF/container.xml",
                      (decodeAt K.xmlContainer rC Container.zero).1.selectRootfile.Rootfile.Path,
                      "META-INF/encryption.xml", "META-INF/license.lcpl"]) := by
  cases src with
  | archive z =>
    simp only [fetch_eq_store, Source.init, Epub.zero]
    cases hC : store os "" z "META-INF/container.xml" with
    | none => simp [construct, openEpub, Epub.zero, parseXML_run, hC]
    | some rC =>
      by_cases h1 : (decodeAt K.xmlContainer rC Container.zero).2 = none
      · cases hO : store os "" z
          (decodeAt K.xmlContainer rC Container.zero).1.selectRootfile.Rootfile.Path with
        | none => simp [construct, openEpub, Epub.zero, parseXML_run, hC, h1, hO]
        | some rO =>
          by_cases h2 : (decodeAt K.xmlOpf rO (Opf.zero S)).2 = none
          · cases hE : store os "" z "META-INF/encryption.xml" with
            | none => simp [construct, openEpub, Epub.zero, parseXML_run, hC, h1, hO, h2, hE]
            | some rE =>
              cases hL : store os "" z "META-INF/license.lcpl" with
              | none =>
                simp [construct, openEpub, Epub.zero, parseXML_run, parseJSON_run, hC, h1, hO,
                  h2, hE, hL]
              | some rL =>
                simp [construct, openEpub, Epub.zero, parseXML_run, parseJSON_run, hC, h1, hO,
                  h2, hE, hL, rangeManifest]
          · simp [construct, openEpub, Epub.zero, parseXML_run, hC, h1, hO, h2]
      · simp [construct, openEpub, Epub.zero, parseXML_run, hC, h1]
  | dir d =>
    simp only [fetch_eq_store, Source.init, Epub.zero]
    cases hC : store os d none "META-INF/container.xml" with
    | none => simp [construct, OpenDir, Epub.zero, parseXML_run, hC]
    | some rC =>
      by_cases h1 : (decodeAt K.xmlContainer rC Container.zero).2 = none
      · cases hO : store os d none
          (decodeAt K.xmlContainer rC Container.zero).1.selectRootfile.Rootfile.Path with
        | none => simp [construct, OpenDir, Epub.zero, parseXML_run, hC, h1, hO]
        | some rO =>
          by_cases h2 : (decodeAt K.xmlOpf rO (Opf.zero S)).2 = none
          · cases hE : store os d none "META-INF/encryption.xml" with
            | none => simp [construct, OpenDir, Epub.zero, parseXML_run, hC, h1, hO, h2, hE]
            | some rE =>
              cases hL : store os d none "META-INF/license.lcpl" with
              | none =>
                simp [construct, OpenDir, Epub.zero, parseXML_run, parseJSON_run, hC, h1, hO,
                  h2, hE, hL]
              | some rL =>
                simp [construct, OpenDir, Epub.zero, parseXML_run, parseJSON_run, hC, h1, hO,
                  h2, hE, hL, rangeManifest]
          · simp [construct, OpenDir, Epub.zero, parseXML_run, hC, h1, hO, h2]
      · simp [construct, OpenDir, Epub.zero, parseXML_run, hC, h1]

/-- If one fetch does not panic, none does: a panic depends on the backend
only, not on the file name. -/
theorem fetch_isSome {S : Schema} (os : OS) (epub : Epub S) (p q : String)
    (h : (epub.fetch os p).isSome) : ∃ r, epub.fetch os q = some r := by
  rw [fetch_eq_store] at *
  unfold store at *
  by_cases hd : epub.directory = ""
  · cases hz : epub.zipFd <;> simp_all
  · simp [hd]

theorem openEpub_rangeManifest_nomatch {S : Schema} (os : OS) (K : Codec S) (epb : Epub S)
    (l : List Manifest) (t : List String) (h : ∀ x ∈ l, x.ID ≠ epb.Opf.Spine.Toc) :
    (openEpub.rangeManifest os K epb l).run t = some ((some epb, none), t) := by
  induction l with
  | nil => rfl
  | cons x l ih =>
    have hx : x.ID ≠ epb.Opf.Spine.Toc := h x (List.mem_cons_self x l)
    simp only [openEpub.rangeManifest, hx, if_false]
    exact ih (fun y hy => h y (List.mem_cons_of_mem x hy))

theorem OpenDir_rangeManifest_nomatch {S : Schema} (os : OS) (K : Codec S) (epb : Epub S)
    (l : List Manifest) (t : List String) (h : ∀ x ∈ l, x.ID ≠ epb.Opf.Spine.Toc) :
    (OpenDir.rangeManifest os K epb l).run t = some ((some epb, none), t) := by
  induction l with
  | nil => rfl
  | cons x l ih =>
    have hx : x.ID ≠ epb.Opf.Spine.Toc := h x (List.mem_cons_self x l)
    simp only [OpenDir.rangeManifest, hx, if_false]
    exact ih (fun y hy => h y (List.mem_cons_of_mem x hy))

theorem openEpub_rangeManifest_match {S : Schema} (os : OS) (K : Codec S) (epb : Epub S)
    (pre post : List Manifest) (m : Manifest) (t : List String)
    (hpre : ∀ x ∈ pre, x.ID ≠ epb.Opf.Spine.Toc) (hm : m.ID = epb.Opf.Spine.Toc) :
    (openEpub.rangeManifest os K epb (pre ++ m :: post)).run t =
      (epb.fetch os (epb.filename m.Href)).map (fun r =>
        ((some { epb with NcxPath := epb.filename m.Href,
                          Ncx := (decodeAt K.xmlNcx r epb.Ncx).1 }, none),
          t ++ [epb.filename m.Href])) := by
  induction pre with
  | nil =>
    simp only [List.nil_append, openEpub.rangeManifest, hm, if_true, StateT.run_bind,
      parseXML_run, fetch_eq_store, Epub.filename]
    cases store os epb.directory epb.zipFd
      (path.Join [path.Dir epb.Container.Rootfile.Path, m.Href]) <;> rfl
  | cons x pre ih =>
    have hx : x.ID ≠ epb.Opf.Spine.Toc := hpre x (List.mem_cons_self x pre)
    simp only [List.cons_append, openEpub.rangeManifest, hx, if_false]
    exact ih (fun y hy => hpre y (List.mem_cons_of_mem x hy))

theorem OpenDir_rangeManifest_match {S : Schema} (os : OS) (K : Codec S) (epb : Epub S)
    (pre post : List Manifest) (m : Manifest) (t : List String)
    (hpre : ∀ x ∈ pre, x.ID ≠ epb.Opf.Spine.Toc) (hm : m.ID = epb.Opf.Spine.Toc) :
    (OpenDir.rangeManifest os K epb (pre ++ m :: post)).run t =
      (epb.fetch os (epb.filename m.Href)).map (fun r =>
        (if (decodeAt K.xmlNcx r epb.Ncx).2 ≠ none then
            (none, (decodeAt K.xmlNcx r epb.Ncx).2)
          else (some { epb with Ncx := (decodeAt K.xmlNcx r epb.Ncx).1 }, none),
          t ++ [epb.filename m.Href])) := by
  induction pre with
  | nil =>
    simp only [List.nil_append, OpenDir.rangeManifest, hm, if_true, StateT.run_bind,
      parseXML_run, fetch_eq_store, Epub.filename]
    cases store os epb.directory epb.zipFd
      (path.Join [path.Dir epb.Container.Rootfile.Path, m.Href]) with
    | none => rfl
    | some r =>
      by_cases he : (decodeAt K.xmlNcx r epb.Ncx).2 = none <;> simp [he]
  | cons x pre ih =>
    have hx : x.ID ≠ epb.Opf.Spine.Toc := hpre x (List.mem_cons_self x pre)
    simp only [List.cons_append, OpenDir.rangeManifest, hx, if_false]
    exact ih (fun y hy => hpre y (List.mem_cons_of_mem x hy))

/-- Every manifest either has no item with the given id, or splits at the
first such item. -/
theorem manifest_split (l : List Manifest) (toc : String) :
    (∀ x ∈ l, x.ID ≠ toc) ∨
      ∃ pre m post, l = pre ++ m :: post ∧ (∀ x ∈ pre, x.ID ≠ toc) ∧ m.ID = toc := by
  induction l with
  | nil => left; simp
  | cons x l ih =>
    by_cases hx : x.ID = toc
    · right; exact ⟨[], x, l, rfl, by simp, hx⟩
    · rcases ih with h | ⟨pre, m, post, hl, hpre, hm⟩
      · left
        intro y hy
        rcases List.mem_cons.mp hy with rfl | hy
        · exact hx
        · exact h y hy
      · right
        refine ⟨x :: pre, m, post, by simp [hl], ?_, hm⟩
        intro y hy
        rcases List.mem_cons.mp hy with rfl | hy
        · exact hx
        · exact hpre y hy

/-- The manifest loop returns an object or an error, never both and never
neither, and only adds fetches. -/
theorem rangeManifest_shape {S : Schema} (os : OS) (K : Codec S) (src : Source) (epb : Epub S)
    (l : List Manifest) (t : List String) (r : Option (Epub S) × Option error)
    (t1 : List String) (h : (rangeManifest os K src epb l).run t = some (r, t1)) :
    r.1.isSome = r.2.isNone := by
  rcases manifest_split l epb.Opf.Spine.Toc with hno | ⟨pre, m, post, hl, hpre, hm⟩
  · cases src with
    | archive z =>
      simp only [rangeManifest, openEpub_rangeManifest_nomatch os K epb l t hno] at h
      cases h; rfl
    | dir d =>
      simp only [rangeManifest, OpenDir_rangeManifest_nomatch os K epb l t hno] at h
      cases h; rfl
  · subst hl
    cases src with
    | archive z =>
      simp only [rangeManifest, openEpub_rangeManifest_match os K epb pre post m t hpre hm] at h
      cases hf : epb.fetch os (epb.filename m.Href) with
      | none => simp [hf] at h
      | some rN =>
        simp [hf] at h
        obtain ⟨h1, -⟩ := h
        subst h1; rfl
    | dir d =>
      simp only [rangeManifest, OpenDir_rangeManifest_match os K epb pre post m t hpre hm] at h
      cases hf : epb.fetch os (epb.filename m.Href) with
      | none => simp [hf] at h
      | some rN =>
        simp [hf] at h
        obtain ⟨h1, -⟩ := h
        subst h1
        by_cases he : (decodeAt K.xmlNcx rN epb.Ncx).2 = none
        · simp [he]
        · simp [he]
          cases hv : (decodeAt K.xmlNcx rN epb.Ncx).2 with
          | none => exact absurd hv he
          | some e => rfl

theorem openZip_nomatch (rc : ZipReadCloser) (q : String) (l : List ZipFile)
    (h : ∀ f ∈ l, f.Name ≠ q) :
    Epub.openZip rc q l = Except.error ("can't find file or directory " ++ q) := by
  induction l with
  | nil => rfl
  | cons x l ih =>
    have hx : x.Name ≠ q := h x (List.mem_cons_self x l)
    simp only [Epub.openZip, hx, if_false]
    exact ih (fun y hy => h y (List.mem_cons_of_mem x hy))

theorem openZip_match (rc : ZipReadCloser) (q : String) (pre post : List ZipFile) (f : ZipFile)
    (hpre : ∀ x ∈ pre, x.Name ≠ q) (hf : f.Name = q) :
    Epub.openZip rc q (pre ++ f :: post) = f.Open rc := by
  induction pre with
  | nil => simp [Epub.openZip, hf]
  | cons x pre ih =>
    have hx : x.Name ≠ q := hpre x (List.mem_cons_self x pre)
    simp only [List.cons_append, Epub.openZip, hx, if_false]
    exact ih (fun y hy => hpre y (List.mem_cons_of_mem x hy))

theorem rangeManifest_nomatch {S : Schema} (os : OS) (K : Codec S) (src : Source)
    (epb : Epub S) (l : List Manifest) (t : List String)
    (h : ∀ x ∈ l, x.ID ≠ epb.Opf.Spine.Toc) :
    (rangeManifest os K src epb l).run t = some ((some epb, none), t) := by
  cases src with
  | archive z => exact openEpub_rangeManifest_nomatch os K epb l t h
  | dir d => exact OpenDir_rangeManifest_nomatch os K epb l t h

theorem rangeManifest_match {S : Schema} (os : OS) (K : Codec S) (src : Source)
    (epb : Epub S) (pre post : List Manifest) (m : Manifest) (t : List String)
    (hpre : ∀ x ∈ pre, x.ID ≠ epb.Opf.Spine.Toc) (hm : m.ID = epb.Opf.Spine.Toc) :
    (rangeManifest os K src epb (pre ++ m :: post)).run t =
      (epb.fetch os (epb.filename m.Href)).map (fun rN =>
        (navResult K src epb m rN, t ++ [epb.filename m.Href])) := by
  cases src with
  | archive z => exact openEpub_rangeManifest_match os K epb pre post m t hpre hm
  | dir d => exact OpenDir_rangeManifest_match os K epb pre post m t hpre hm

/-- The fields the manifest loop leaves alone. -/
theorem navResult_fields {S : Schema} (K : Codec S) (src : Source) (epb : Epub S)
    (m : Manifest) (rN : Except error ReadCloser) (e : Epub S)
    (h : (navResult K src epb m rN).1 = some e) :
    e.Container = epb.Container ∧ e.Opf = epb.Opf ∧ e.Encryption = epb.Encryption ∧
      e.LCP = epb.LCP ∧ e.zipFd = epb.zipFd ∧ e.directory = epb.directory ∧
      e.Ncx = (decodeAt K.xmlNcx rN epb.Ncx).1 := by
  cases src with
  | archive z =>
    simp only [navResult, Option.some.injEq] at h
    subst h
    simp
  | dir d =>
    by_cases he : (decodeAt K.xmlNcx rN epb.Ncx).2 = none
    · simp only [navResult, he, ne_eq, not_true_eq_false, if_false, Option.some.injEq] at h
      subst h
      simp
    · simp [navResult, he] at h

/-- The fields of the object that the manifest loop leaves alone. -/
theorem rangeManifest_fields {S : Schema} (os : OS) (K : Codec S) (src : Source)
    (epb : Epub S) (l : List Manifest) (t t1 : List String) (e : Epub S) (err : Option error)
    (h : (rangeManifest os K src epb l).run t = some ((some e, err), t1)) :
    e.Container = epb.Container ∧ e.Opf = epb.Opf ∧ e.Encryption = epb.Encryption ∧
      e.LCP = epb.LCP ∧ e.zipFd = epb.zipFd ∧ e.directory = epb.directory := by
  rcases manifest_split l epb.Opf.Spine.Toc with hno | ⟨pre, m, post, hl, hpre, hm⟩
  · rw [rangeManifest_nomatch os K src epb l t hno] at h
    simp only [Option.some.injEq, Prod.mk.injEq] at h
    rw [← h.1.1]
    exact ⟨rfl, rfl, rfl, rfl, rfl, rfl⟩
  · rw [hl, rangeManifest_match os K src epb pre post m t hpre hm] at h
    cases hf : epb.fetch os (epb.filename m.Href) with
    | none => rw [hf] at h; simp at h
    | some rN =>
      rw [hf] at h
      simp only [Option.map_some', Option.some.injEq, Prod.mk.injEq] at h
      have hf := navResult_fields K src epb m rN e (by rw [h.1])
      exact ⟨hf.1, hf.2.1, hf.2.2.1, hf.2.2.2.1, hf.2.2.2.2.1, hf.2.2.2.2.2.1⟩

/-- The construction pipeline once the container and the package steps have
gone through without error, whether the documents were absent or decoded:
the two metadata fetches follow, then the manifest loop. -/
theorem construct_run_ok {S : Schema} (os : OS) (K : Codec S) (src : Source) (t : List String)
    (rC rO : Except error ReadCloser) (c : Container) (o : Opf S)
    (hC : (src.init S).fetch os "META-INF/container.xml" = some rC)
    (hc : decodeAt K.xmlContainer rC Container.zero = (c, none))
    (hO : (src.init S).fetch os c.selectRootfile.Rootfile.Path = some rO)
    (ho : decodeAt K.xmlOpf rO (Opf.zero S) = (o, none)) :
    ∃ rE rL, (src.init S).fetch os "META-INF/encryption.xml" = some rE ∧
      (src.init S).fetch os "META-INF/license.lcpl" = some rL ∧
      (construct os K src).run t =
        (rangeManifest os K src
          { src.init S with
            Container := c.selectRootfile,
            Opf := o,
            Encryption := (decodeAt K.xmlEncryption rE S.zeroEncryption).1,
            LCP := (decodeAt K.jsonLCP rL S.zeroLCP).1 }
          o.Manifest).run
          (t ++ ["META-INF/container.xml", c.selectRootfile.Rootfile.Path,
            "META-INF/encryption.xml", "META-INF/license.lcpl"]) := by
  obtain ⟨rE, hE⟩ := fetch_isSome os (src.init S) "META-INF/container.xml"
    "META-INF/encryption.xml" (by simp [hC])
  obtain ⟨rL, hL⟩ := fetch_isSome os (src.init S) "META-INF/container.xml"
    "META-INF/license.lcpl" (by simp [hC])
  refine ⟨rE, rL, hE, hL, ?_⟩
  rw [construct_run]
  simp [hC, hc, hO, ho, hE, hL]

/-- The container step stops the construction with its error. -/
theorem construct_run_errCont {S : Schema} (os : OS) (K : Codec S) (src : Source)
    (t : List String) (rC : Except error ReadCloser) (e : error)
    (hC : (src.init S).fetch os "META-INF/container.xml" = some rC)
    (hc : (decodeAt K.xmlContainer rC Container.zero).2 = some e) :
    (construct os K src).run t = some ((none, some e), t ++ ["META-INF/container.xml"]) := by
  rw [construct_run]
  simp [hC, hc]

/-- The package step stops the construction with its error. -/
theorem construct_run_errOpf {S : Schema} (os : OS) (K : Codec S) (src : Source)
    (t : List String) (rC rO : Except error ReadCloser) (c : Container) (e : error)
    (hC : (src.init S).fetch os "META-INF/container.xml" = some rC)
    (hc : decodeAt K.xmlContainer rC Container.zero = (c, none))
    (hO : (src.init S).fetch os c.selectRootfile.Rootfile.Path = some rO)
    (ho : (decodeAt K.xmlOpf rO (Opf.zero S)).2 = some e) :
    (construct os K src).run t =
      some ((none, some e),
        t ++ ["META-INF/container.xml", c.selectRootfile.Rootfile.Path]) := by
  rw [construct_run]
  simp [hC, hc, hO, ho]

/-- How a construction that does not panic has gone: stopped by the container
error, stopped by the package error, or through to the manifest loop. -/
theorem construct_cases {S : Schema} (os : OS) (K : Codec S) (src : Source) (t : List String)
    (r : Option (Epub S) × Option error) (t1 : List String)
    (h : (construct os K src).run t = some (r, t1)) :
    ∃ rC, (src.init S).fetch os "META-INF/container.xml" = some rC ∧
      ((∃ e, (decodeAt K.xmlContainer rC Container.zero).2 = some e ∧ r = (none, some e) ∧
          t1 = t ++ ["META-INF/container.xml"]) ∨
        ∃ c rO, decodeAt K.xmlContainer rC Container.zero = (c, none) ∧
          (src.init S).fetch os c.selectRootfile.Rootfile.Path = some rO ∧
          ((∃ e, (decodeAt K.xmlOpf rO (Opf.zero S)).2 = some e ∧ r = (none, some e) ∧
              t1 = t ++ ["META-INF/container.xml", c.selectRootfile.Rootfile.Path]) ∨
            ∃ o rE rL, decodeAt K.xmlOpf rO (Opf.zero S) = (o, none) ∧
              (src.init S).fetch os "META-INF/encryption.xml" = some rE ∧
              (src.init S).fetch os "META-INF/license.lcpl" = some rL ∧
              (rangeManifest os K src
                { src.init S with
                  Container := c.selectRootfile,
                  Opf := o,
                  Encryption := (decodeAt K.xmlEncryption rE S.zeroEncryption).1,
                  LCP := (decodeAt K.jsonLCP rL S.zeroLCP).1 }
                o.Manifest).run
                (t ++ ["META-INF/container.xml", c.selectRootfile.Rootfile.Path,
                  "META-INF/encryption.xml", "META-INF/license.lcpl"]) = some (r, t1))) := by
  cases hC : (src.init S).fetch os "META-INF/container.xml" with
  | none => rw [construct_run] at h; simp [hC] at h
  | some rC =>
    refine ⟨rC, rfl, ?_⟩
    cases hc : decodeAt K.xmlContainer rC Container.zero with
    | mk c errC =>
      cases errC with
      | some e =>
        left
        have := construct_run_errCont os K src t rC e hC (by rw [hc])
        rw [this] at h
        simp only [Option.some.injEq, Prod.mk.injEq] at h
        exact ⟨e, rfl, h.1.symm, h.2.symm⟩
      | none =>
        right
        obtain ⟨rO, hO⟩ := fetch_isSome os (src.init S) "META-INF/container.xml"
          c.selectRootfile.Rootfile.Path (by simp [hC])
        refine ⟨c, rO, rfl, hO, ?_⟩
        cases ho : decodeAt K.xmlOpf rO (Opf.zero S) with
        | mk o errO =>
          cases errO with
          | some e =>
            left
            have := construct_run_errOpf os K src t rC rO c e hC hc hO (by rw [ho])
            rw [this] at h
            simp only [Option.some.injEq, Prod.mk.injEq] at h
            exact ⟨e, rfl, h.1.symm, h.2.symm⟩
          | none =>
            right
            obtain ⟨rE, rL, hE, hL, hrun⟩ := construct_run_ok os K src t rC rO c o hC hc hO ho
            exact ⟨o, rE, rL, rfl, hE, hL, by rw [← hrun]; exact h⟩

/-- The construction pipeline when the container and the package steps have
gone through and the manifest has an item with the navigation id: the object
`epb` handed to the manifest loop, the result `rN` of opening the navigation
resource, and the outcome. -/
theorem construct_run_match {S : Schema} (os : OS) (K : Codec S) (src : Source)
    (t : List String) (rC rO : Except error ReadCloser) (c : Container) (o : Opf S)
    (pre post : List Manifest) (m : Manifest)
    (hC : (src.init S).fetch os "META-INF/container.xml" = some rC)
    (hc : decodeAt K.xmlContainer rC Container.zero = (c, none))
    (hO : (src.init S).fetch os c.selectRootfile.Rootfile.Path = some rO)
    (ho : decodeAt K.xmlOpf rO (Opf.zero S) = (o, none))
    (hl : o.Manifest = pre ++ m :: post) (hpre : ∀ x ∈ pre, x.ID ≠ o.Spine.Toc)
    (hm : m.ID = o.Spine.Toc) :
    ∃ epb rN, epb.Container = c.selectRootfile ∧ epb.Opf = o ∧ epb.Ncx = S.zeroNcx ∧
      epb.zipFd = (src.init S).zipFd ∧ epb.directory = (src.init S).directory ∧
      (src.init S).fetch os (path.Join [path.Dir c.selectRootfile.Rootfile.Path, m.Href]) =
        some rN ∧
      (construct os K src).run t =
        some (navResult K src epb m rN,
          t ++ ["META-INF/container.xml", c.selectRootfile.Rootfile.Path,
            "META-INF/encryption.xml", "META-INF/license.lcpl",
            path.Join [path.Dir c.selectRootfile.Rootfile.Path, m.Href]]) := by
  obtain ⟨rE, rL, -, -, hrun⟩ := construct_run_ok os K src t rC rO c o hC hc hO ho
  obtain ⟨rN, hN⟩ := fetch_isSome os (src.init S) "META-INF/container.xml"
    (path.Join [path.Dir c.selectRootfile.Rootfile.Path, m.Href]) (by simp [hC])
  refine ⟨{ src.init S with
      Container := c.selectRootfile,
      Opf := o,
      Encryption := (decodeAt K.xmlEncryption rE S.zeroEncryption).1,
      LCP := (decodeAt K.jsonLCP rL S.zeroLCP).1 }, rN, rfl, rfl, ?_, rfl, rfl, hN, ?_⟩
  · cases src <;> rfl
  · rw [hrun, hl, rangeManifest_match os K src _ pre post m _ hpre hm]
    have hN1 : Epub.fetch os
        { src.init S with
          Container := c.selectRootfile,
          Opf := o,
          Encryption := (decodeAt K.xmlEncryption rE S.zeroEncryption).1,
          LCP := (decodeAt K.jsonLCP rL S.zeroLCP).1 }
        (path.Join [path.Dir c.selectRootfile.Rootfile.Path, m.Href]) = some rN := by
      rw [fetch_eq_store] at hN ⊢
      exact hN
    simp only [Epub.filename, hN1, Option.map_some']
    simp

theorem navResult_outcome {S : Schema} (K : Codec S) (src : Source) (epb : Epub S)
    (m : Manifest) (rN : Except error ReadCloser) :
    ((navResult K src epb m rN).1.isSome, (navResult K src epb m rN).2) =
      if src.isArchive = true then (true, none)
      else if (decodeAt K.xmlNcx rN epb.Ncx).2 ≠ none then
        (false, (decodeAt K.xmlNcx rN epb.Ncx).2)
      else (true, none) := by
  cases src with
  | archive z => rfl
  | dir d =>
    by_cases he : (decodeAt K.xmlNcx rN epb.Ncx).2 = none <;>
      simp [navResult, Source.isArchive, he]

/-- In a manifest split at its first item with the given id, that item is
what `List.find?` finds. -/
theorem find_first_match (toc : String) (pre post : List Manifest) (m : Manifest)
    (hpre : ∀ x ∈ pre, x.ID ≠ toc) (hm : m.ID = toc) :
    (pre ++ m :: post).find? (fun x => decide (x.ID = toc)) = some m := by
  induction pre with
  | nil => simp [hm]
  | cons x pre ih =>
    have hx : x.ID ≠ toc := hpre x (List.mem_cons_self x pre)
    simp only [List.cons_append, List.find?_cons, hx, decide_False]
    exact ih (fun y hy => hpre y (List.mem_cons_of_mem x hy))

/-- Two constructions of the same kind, with codecs that agree away from the
two metadata decoders and over stores that give the same result for the
container descriptor and for every name the first construction fetches for
the container, the package and the navigation document, have the same
outcome. -/
theorem outcome_congr {S : Schema} (os1 os2 : OS) (K1 K2 : Codec S) (src1 src2 : Source)
    (t : List String) (hkind : src1.isArchive = src2.isArchive)
    (hKc : K1.xmlContainer = K2.xmlContainer) (hKo : K1.xmlOpf = K2.xmlOpf)
    (hKn : K1.xmlNcx = K2.xmlNcx)
    (hcont : (src1.init S).fetch os1 "META-INF/container.xml" =
      (src2.init S).fetch os2 "META-INF/container.xml")
    (hfetched : ∀ r t1, (construct os1 K1 src1).run [] = some (r, t1) →
      ∀ p ∈ t1.take 2 ++ t1.drop 4,
        (src1.init S).fetch os1 p = (src2.init S).fetch os2 p) :
    outcome ((construct os1 K1 src1).run t) = outcome ((construct os2 K2 src2).run t) := by
  cases hC : (src1.init S).fetch os1 "META-INF/container.xml" with
  | none =>
    have hC2 : (src2.init S).fetch os2 "META-INF/container.xml" = none := by
      rw [← hcont]; exact hC
    rw [construct_run, construct_run, hC, hC2]
    rfl
  | some rC =>
    have hC2 : (src2.init S).fetch os2 "META-INF/container.xml" = some rC := by
      rw [← hcont]; exact hC
    cases hc : decodeAt K1.xmlContainer rC Container.zero with
    | mk c errC =>
      have hc2 : decodeAt K2.xmlContainer rC Container.zero = (c, errC) := by
        rw [← hKc]; exact hc
      cases errC with
      | some e =>
        rw [construct_run_errCont os1 K1 src1 t rC e hC (by rw [hc]),
          construct_run_errCont os2 K2 src2 t rC e hC2 (by rw [hc2])]
      | none =>
        obtain ⟨rO, hO⟩ := fetch_isSome os1 (src1.init S) "META-INF/container.xml"
          c.selectRootfile.Rootfile.Path (by simp [hC])
        cases ho : decodeAt K1.xmlOpf rO (Opf.zero S) with
        | mk o errO =>
          have ho2 : decodeAt K2.xmlOpf rO (Opf.zero S) = (o, errO) := by
            rw [← hKo]; exact ho
          cases errO with
          | some e =>
            have hrun0 := construct_run_errOpf os1 K1 src1 [] rC rO c e hC hc hO (by rw [ho])
            have hp := hfetched _ _ hrun0 c.selectRootfile.Rootfile.Path (by simp)
            have hO2 : (src2.init S).fetch os2 c.selectRootfile.Rootfile.Path = some rO := by
              rw [← hp]; exact hO
            rw [construct_run_errOpf os1 K1 src1 t rC rO c e hC hc hO (by rw [ho]),
              construct_run_errOpf os2 K2 src2 t rC rO c e hC2 hc2 hO2 (by rw [ho2])]
          | none =>
            rcases manifest_split o.Manifest o.Spine.Toc with
              hno | ⟨pre, m, post, hl, hpre, hm⟩
            · obtain ⟨rE, rL, -, -, hrun0⟩ :=
                construct_run_ok os1 K1 src1 [] rC rO c o hC hc hO ho
              rw [rangeManifest_nomatch os1 K1 src1 _ _ _ hno] at hrun0
              have hp := hfetched _ _ hrun0 c.selectRootfile.Rootfile.Path (by simp)
              have hO2 : (src2.init S).fetch os2 c.selectRootfile.Rootfile.Path = some rO := by
                rw [← hp]; exact hO
              obtain ⟨rE1, rL1, -, -, hrun1⟩ :=
                construct_run_ok os1 K1 src1 t rC rO c o hC hc hO ho
              obtain ⟨rE2, rL2, -, -, hrun2⟩ :=
                construct_run_ok os2 K2 src2 t rC rO c o hC2 hc2 hO2 ho2
              rw [hrun1, hrun2, rangeManifest_nomatch os1 K1 src1 _ _ _ hno,
                rangeManifest_nomatch os2 K2 src2 _ _ _ hno]
              rfl
            · obtain ⟨epb0, rN0, -, -, -, -, -, -, hrun0⟩ :=
                construct_run_match os1 K1 src1 [] rC rO c o pre post m hC hc hO ho hl hpre hm
              have hp := hfetched _ _ hrun0
              have hp1 := hp c.selectRootfile.Rootfile.Path (by simp)
              have hp2 := hp (path.Join [path.Dir c.selectRootfile.Rootfile.Path, m.Href])
                (by simp)
              have hO2 : (src2.init S).fetch os2 c.selectRootfile.Rootfile.Path = some rO := by
                rw [← hp1]; exact hO
              obtain ⟨epb1, rN1, -, -, hncx1, -, -, hN1, hrun1⟩ :=
                construct_run_match os1 K1 src1 t rC rO c o pre post m hC hc hO ho hl hpre hm
              obtain ⟨epb2, rN2, -, -, hncx2, -, -, hN2, hrun2⟩ :=
                construct_run_match os2 K2 src2 t rC rO c o pre post m hC2 hc2 hO2 ho2 hl hpre
                  hm
              have hN : rN1 = rN2 := by
                rw [hp2, hN2] at hN1
                exact (Option.some.inj hN1).symm
              rw [hrun1, hrun2]
              simp only [outcome, Option.map_some', navResult_outcome, hncx1, hncx2, hKn,
                hkind, hN]

/-- Where the error of a construction comes from: it is the error that
decoding the container descriptor, the package document or (for `OpenDir`) the
navigation document returned, on a resource that was opened. -/
theorem construct_error_origin {S : Schema} (os : OS) (K : Codec S) (src : Source)
    (t t1 : List String) (r : Option (Epub S) × Option error) (e : error)
    (h : (construct os K src).run t = some (r, t1)) (he : r.2 = some e) :
    (∃ fd, (src.init S).fetch os "META-INF/container.xml" = some (Except.ok fd) ∧
        (K.xmlContainer fd Container.zero).2 = some e) ∨
      ∃ p fd, (src.init S).fetch os p = some (Except.ok fd) ∧
        ((K.xmlOpf fd (Opf.zero S)).2 = some e ∨
          (src.isArchive = false ∧ (K.xmlNcx fd S.zeroNcx).2 = some e)) := by
  obtain ⟨rC, hC, hcases⟩ := construct_cases os K src t r t1 h
  rcases hcases with ⟨e1, hdec, hr, -⟩ |
    ⟨c, rO, -, hO, ⟨e1, hdec, hr, -⟩ | ⟨o, rE, rL, -, -, -, hman⟩⟩
  · left
    subst hr
    simp only [Option.some.injEq] at he
    subst he
    cases rC with
    | error e0 => simp [decodeAt] at hdec
    | ok fd => exact ⟨fd, hC, hdec⟩
  · right
    subst hr
    simp only [Option.some.injEq] at he
    subst he
    cases rO with
    | error e0 => simp [decodeAt] at hdec
    | ok fd => exact ⟨_, fd, hO, Or.inl hdec⟩
  · right
    rcases manifest_split o.Manifest o.Spine.Toc with hno | ⟨pre, m, post, hl, hpre, hm⟩
    · rw [rangeManifest_nomatch os K src _ _ _ hno] at hman
      simp only [Option.some.injEq, Prod.mk.injEq] at hman
      rw [← hman.1] at he
      simp at he
    · rw [hl, rangeManifest_match os K src _ pre post m _ hpre hm] at hman
      cases hf : Epub.fetch os
          { src.init S with
            Container := c.selectRootfile,
            Opf := o,
            Encryption := (decodeAt K.xmlEncryption rE S.zeroEncryption).1,
            LCP := (decodeAt K.jsonLCP rL S.zeroLCP).1 }
          (Epub.filename
            { src.init S with
              Container := c.selectRootfile,
              Opf := o,
              Encryption := (decodeAt K.xmlEncryption rE S.zeroEncryption).1,
              LCP := (decodeAt K.jsonLCP rL S.zeroLCP).1 } m.Href) with
      | none => rw [hf] at hman; simp at hman
      | some rN =>
        rw [hf] at hman
        simp only [Option.map_some', Option.some.injEq, Prod.mk.injEq] at hman
        rw [← hman.1] at he
        have hf1 : (src.init S).fetch os
            (path.Join [path.Dir c.selectRootfile.Rootfile.Path, m.Href]) = some rN := by
          rw [fetch_eq_store] at hf ⊢
          exact hf
        cases src with
        | archive z => simp [navResult] at he
        | dir d =>
          have hzero : (Source.init S (Source.dir d)).Ncx = S.zeroNcx := rfl
          simp only [navResult, hzero] at he
          cases rN with
          | error e0 => simp [decodeAt] at he
          | ok fd =>
            by_cases hn : (decodeAt K.xmlNcx (Except.ok fd) S.zeroNcx).2 = none
            · simp [hn] at he
            · simp only [ne_eq, hn, not_false_eq_true, if_true] at he
              exact ⟨_, fd, hf1, Or.inr ⟨rfl, he⟩⟩

/-- Every object that a construction returns has the backend it was given. -/
theorem construct_backend {S : Schema} (os : OS) (K : Codec S) (src : Source)
    (t t1 : List String) (e : Epub S) (err : Option error)
    (h : (construct os K src).run t = some ((some e, err), t1)) :
    e.zipFd = (src.init S).zipFd ∧ e.directory = (src.init S).directory := by
  obtain ⟨rC, -, hcases⟩ := construct_cases os K src t _ t1 h
  rcases hcases with ⟨e1, -, hr, -⟩ | ⟨c, rO, -, -, ⟨e1, -, hr, -⟩ | ⟨o, rE, rL, -, -, -, hman⟩⟩
  · simp at hr
  · simp at hr
  · have hf := rangeManifest_fields os K src _ _ _ t1 e err hman
    exact ⟨hf.2.2.2.2.1, hf.2.2.2.2.2⟩

/-- Every object that `OpenEpub` returns owns a closed archive handle: the one
`zip.OpenReader` gave, after the deferred `Close`. -/
theorem OpenEpub_closes_handle {S : Schema} (os : OS) (K : Codec S) (fn : String)
    (t t1 : List String) (epub : Epub S) (err : Option error)
    (h : (OpenEpub os K fn).run t = some ((some epub, err), t1)) :
    ∃ entries, os.zipOpenReader fn = Except.ok entries ∧
      epub.zipFd = some { name := fn, File := entries, closed := true } := by
  unfold OpenEpub at h
  cases hz : os.zipOpenReader fn with
  | error e0 => simp [hz] at h
  | ok entries =>
    refine ⟨entries, rfl, ?_⟩
    simp only [hz, StateT.run_bind] at h
    cases hrun : (openEpub os K (some { name := fn, File := entries, closed := false })).run t with
    | none => simp [hrun] at h
    | some res =>
      obtain ⟨⟨oe, err0⟩, t0⟩ := res
      simp [hrun] at h
      obtain ⟨⟨he, -⟩, -⟩ := h
      cases oe with
      | none => simp at he
      | some e0 =>
        have hb := (construct_backend os K
          (Source.archive (some { name := fn, File := entries, closed := false })) t t0 e0 err0
          hrun).1
        obtain ⟨a, ha, he⟩ := he
        cases ha
        rw [← he]
        simp [hb, Source.init, Epub.zero, ZipReadCloser.Close]

/-! ## The claims -/

/-- C1: `Open(p)` is exactly `RawOpen` of `path.Join(path.Dir(r), p)`, where
`r` is the primary rootfile path: whenever it returns, the one name it has
fetched is that joined name; and for `r = "OEBPS/content.opf"` and
`p = "chapter1.xhtml"` the name is `"OEBPS/chapter1.xhtml"`. -/
theorem C1_Open_resolves_against_rootfile_dir {S : Schema} (os : OS) (epub : Epub S)
    (p : String) :
    epub.Open os p = epub.RawOpen os (path.Join [path.Dir epub.Container.Rootfile.Path, p]) ∧
    (∀ t r t1, (epub.Open os p).run t = some (r, t1) →
      t1 = t ++ [path.Join [path.Dir epub.Container.Rootfile.Path, p]] ∧
      epub.fetch os (path.Join [path.Dir epub.Container.Rootfile.Path, p]) = some r) ∧
    (epub.Container.Rootfile.Path = "OEBPS/content.opf" →
      epub.Open os "chapter1.xhtml" = epub.RawOpen os "OEBPS/chapter1.xhtml") := by
  refine ⟨rfl, ?_, ?_⟩
  · intro t r t1 h
    simp only [Epub.Open, Epub.filename, open_run] at h
    rw [fetch_eq_store]
    cases hs : store os epub.directory epub.zipFd
        (path.Join [path.Dir epub.Container.Rootfile.Path, p]) with
    | none => simp [hs] at h
    | some r1 =>
      simp [hs] at h
      simp [h.1, h.2]
  · intro hr
    simp only [Epub.Open, Epub.RawOpen, Epub.filename, hr]
    rfl

/-- C1 at the well-formed archive: resolved open of `chapter1.xhtml` is raw
open of `OEBPS/chapter1.xhtml`, and it yields the entry next to the package
document, not the one at the archive root. -/
theorem C1_Open_resolves_against_rootfile_dir_witness :
    goodEpub.Open os0 "chapter1.xhtml" = goodEpub.RawOpen os0 "OEBPS/chapter1.xhtml" ∧
    (["fetched"] ++ ["OEBPS/chapter1.xhtml"] =
        ["fetched"] ++ [path.Join [path.Dir goodEpub.Container.Rootfile.Path, "chapter1.xhtml"]] ∧
      goodEpub.fetch os0
        (path.Join [path.Dir goodEpub.Container.Rootfile.Path, "chapter1.xhtml"]) =
        some (Except.ok (bytes [60, 49]))) :=
  ⟨(C1_Open_resolves_against_rootfile_dir os0 goodEpub "chapter1.xhtml").2.2 rfl,
   (C1_Open_resolves_against_rootfile_dir os0 goodEpub "chapter1.xhtml").2.1 ["fetched"]
      (Except.ok (bytes [60, 49])) (["fetched"] ++ ["OEBPS/chapter1.xhtml"]) rfl⟩

/-- C2 as stated fails: an archive without any entry has no container
descriptor, yet `openEpub` returns an object and a nil error; so does
`OpenDir` on a directory that does not exist; and so does `openEpub` on an
archive whose container descriptor names a package document that is not
there. -/
theorem C2_absent_documents_not_fatal_counterexample :
    ((Source.archive (some (opened []))).init S0).fetch os0 "META-INF/container.xml" =
      some (Except.error "can't find file or directory META-INF/container.xml") ∧
    (openEpub os0 K0 (some (opened []))).run [] =
      some ((some { Epub.zero S0 with zipFd := some (opened []) }, none),
        ["META-INF/container.xml", "", "META-INF/encryption.xml", "META-INF/license.lcpl"]) ∧
    ((Source.dir "nowhere").init S0).fetch os0 "META-INF/container.xml" =
      some (Except.error "open nowhere/META-INF/container.xml: no such file or directory") ∧
    (OpenDir os0 K0 "nowhere").run [] =
      some ((some { Epub.zero S0 with directory := "nowhere" }, none),
        ["META-INF/container.xml", "", "META-INF/encryption.xml", "META-INF/license.lcpl"]) ∧
    ((Source.archive (some (opened containerOnlyEntries))).init S0).fetch os0
        "OEBPS/content.opf" =
      some (Except.error "can't find file or directory OEBPS/content.opf") ∧
    (openEpub os0 K0 (some (opened containerOnlyEntries))).run [] =
      some ((some { Epub.zero S0 with
                      zipFd := some (opened containerOnlyEntries),
                      Container := goodEpub.Container }, none),
        ["META-INF/container.xml", "OEBPS/content.opf", "META-INF/encryption.xml",
          "META-INF/license.lcpl"]) := by
  refine ⟨rfl, rfl, rfl, rfl, rfl, rfl⟩

/-- C2 amended: in both construction functions an absent resource is skipped,
not fatal.  If opening `META-INF/container.xml` fails, the container stays
empty and the package is looked up at the empty path; if that open fails too,
or if the container decoded and opening the primary rootfile path fails, the
construction goes on to the two metadata fetches and returns an object and a
nil error, with an empty package document and an empty navigation document. -/
theorem C2_absent_documents_are_skipped {S : Schema} (os : OS) (K : Codec S) (src : Source)
    (t : List String) :
    (∀ e1 e2, (src.init S).fetch os "META-INF/container.xml" = some (Except.error e1) →
      (src.init S).fetch os "" = some (Except.error e2) →
      ∃ epub, (construct os K src).run t =
          some ((some epub, none),
            t ++ ["META-INF/container.xml", "", "META-INF/encryption.xml",
              "META-INF/license.lcpl"]) ∧
        epub.Container = Container.zero ∧ epub.Opf = Opf.zero S ∧ epub.Ncx = S.zeroNcx) ∧
    (∀ fdC c e, (src.init S).fetch os "META-INF/container.xml" = some (Except.ok fdC) →
      K.xmlContainer fdC Container.zero = (c, none) →
      (src.init S).fetch os c.selectRootfile.Rootfile.Path = some (Except.error e) →
      ∃ epub, (construct os K src).run t =
          some ((some epub, none),
            t ++ ["META-INF/container.xml", c.selectRootfile.Rootfile.Path,
              "META-INF/encryption.xml", "META-INF/license.lcpl"]) ∧
        epub.Container = c.selectRootfile ∧ epub.Opf = Opf.zero S ∧ epub.Ncx = S.zeroNcx) := by
  constructor
  · intro e1 e2 hC hO
    obtain ⟨rE, rL, -, -, hrun⟩ := construct_run_ok os K src t (Except.error e1)
      (Except.error e2) Container.zero (Opf.zero S) hC rfl hO rfl
    rw [hrun, rangeManifest_nomatch os K src _ _ _ (by simp [Opf.zero])]
    refine ⟨_, rfl, rfl, rfl, ?_⟩
    cases src <;> rfl
  · intro fdC c e hC hc hO
    obtain ⟨rE, rL, -, -, hrun⟩ := construct_run_ok os K src t (Except.ok fdC)
      (Except.error e) c (Opf.zero S) hC hc hO rfl
    rw [hrun, rangeManifest_nomatch os K src _ _ _ (by simp [Opf.zero])]
    refine ⟨_, rfl, rfl, rfl, ?_⟩
    cases src <;> rfl

/-- C2 amended, on the directory that does not exist and on the archive that
has only a container descriptor. -/
theorem C2_absent_documents_are_skipped_witness :
    (∃ epub, (OpenDir os0 K0 "nowhere").run [] =
        some ((some epub, none),
          [] ++ ["META-INF/container.xml", "", "META-INF/encryption.xml",
            "META-INF/license.lcpl"]) ∧
      epub.Container = Container.zero ∧ epub.Opf = Opf.zero S0 ∧ epub.Ncx = S0.zeroNcx) ∧
    (∃ epub, (openEpub os0 K0 (some (opened containerOnlyEntries))).run [] =
        some ((some epub, none),
          [] ++ ["META-INF/container.xml", "OEBPS/content.opf", "META-INF/encryption.xml",
            "META-INF/license.lcpl"]) ∧
      epub.Container = goodEpub.Container ∧ epub.Opf = Opf.zero S0 ∧ epub.Ncx = S0.zeroNcx) :=
  ⟨(C2_absent_documents_are_skipped os0 K0 (Source.dir "nowhere") []).1 _ _ rfl rfl,
   (C2_absent_documents_are_skipped os0 K0
      (Source.archive (some (opened containerOnlyEntries))) []).2
      (bytes [60, 99]) _ _ rfl rfl rfl⟩

/-- C3: in both construction functions, when the container descriptor is
present and what it decodes to lists at least one rootfile, every object the
construction returns has that list as `Container.Rootfiles` and its first
element, whatever its media type and version, as `Container.Rootfile`. -/
theorem C3_primary_is_first_rootfile {S : Schema} (os : OS) (K : Codec S) (src : Source)
    (t t1 : List String) (fd : ReadCloser) (rootfile : Rootfile) (rest : List Rootfile)
    (epub : Epub S) (err : Option error)
    (hC : (src.init S).fetch os "META-INF/container.xml" = some (Except.ok fd))
    (hlist : (K.xmlContainer fd Container.zero).1.Rootfiles = rootfile :: rest)
    (hrun : (construct os K src).run t = some ((some epub, err), t1)) :
    epub.Container.Rootfiles = rootfile :: rest ∧ epub.Container.Rootfile = rootfile ∧
      epub.Container.Rootfiles.head? = some epub.Container.Rootfile := by
  obtain ⟨rC, hC1, hcases⟩ := construct_cases os K src t _ t1 hrun
  rw [hC] at hC1
  cases hC1
  have hsel : ∀ c : Container, c.Rootfiles = rootfile :: rest →
      c.selectRootfile.Rootfiles = rootfile :: rest ∧ c.selectRootfile.Rootfile = rootfile := by
    intro c hc
    simp [Container.selectRootfile, hc]
  rcases hcases with ⟨e, -, hr, -⟩ | ⟨c, rO, hc, -, ⟨e, -, hr, -⟩ | ⟨o, rE, rL, -, -, -, hman⟩⟩
  · simp at hr
  · simp at hr
  · have hcl : c.Rootfiles = rootfile :: rest := by
      have : (decodeAt K.xmlContainer (Except.ok fd) Container.zero).1 = c := by rw [hc]
      rw [← this]; exact hlist
    have hfield : epub.Container = c.selectRootfile :=
      (rangeManifest_fields os K src _ _ _ t1 epub err hman).1
    rw [hfield]
    obtain ⟨h1, h2⟩ := hsel c hcl
    exact ⟨h1, h2, by rw [h1, h2]; rfl⟩

/-- C3 on the well-formed archive, whose container lists `OEBPS/content.opf`
and then `alt/other.opf`: the primary rootfile path is `OEBPS/content.opf`. -/
theorem C3_primary_is_first_rootfile_witness :
    goodEpub.Container.Rootfiles =
        [{ Path := "OEBPS/content.opf", MediaType := "application/oebps-package+xml",
           Version := "1.0" },
         { Path := "alt/other.opf", MediaType := "application/oebps-package+xml",
           Version := "2.0" }] ∧
      goodEpub.Container.Rootfile =
        { Path := "OEBPS/content.opf", MediaType := "application/oebps-package+xml",
          Version := "1.0" } ∧
      goodEpub.Container.Rootfiles.head? = some goodEpub.Container.Rootfile :=
  C3_primary_is_first_rootfile os0 K0 (Source.archive (some (opened goodEntries))) [] _
    (bytes [60, 99]) _ _ goodEpub none rfl rfl rfl

/-- C4: in both construction functions, a container descriptor that is present
and whose decode returns the error `e` makes the construction return no
object and `e` after that one fetch; a package document that is present and
whose decode returns `e`, after a container that decoded, makes it return no
object and `e` after those two fetches; and no construction returns both an
object and an error. -/
theorem C4_decode_error_aborts {S : Schema} (os : OS) (K : Codec S) (src : Source)
    (t : List String) :
    (∀ fd e, (src.init S).fetch os "META-INF/container.xml" = some (Except.ok fd) →
      (K.xmlContainer fd Container.zero).2 = some e →
      (construct os K src).run t = some ((none, some e), t ++ ["META-INF/container.xml"])) ∧
    (∀ fdC c fdO e, (src.init S).fetch os "META-INF/container.xml" = some (Except.ok fdC) →
      K.xmlContainer fdC Container.zero = (c, none) →
      (src.init S).fetch os c.selectRootfile.Rootfile.Path = some (Except.ok fdO) →
      (K.xmlOpf fdO (Opf.zero S)).2 = some e →
      (construct os K src).run t =
        some ((none, some e),
          t ++ ["META-INF/container.xml", c.selectRootfile.Rootfile.Path])) ∧
    (∀ r t1, (construct os K src).run t = some (r, t1) →
      ¬ (r.1.isSome = true ∧ r.2.isSome = true)) := by
  refine ⟨?_, ?_, ?_⟩
  · intro fd e hC hc
    exact construct_run_errCont os K src t (Except.ok fd) e hC hc
  · intro fdC c fdO e hC hc hO ho
    exact construct_run_errOpf os K src t (Except.ok fdC) (Except.ok fdO) c e hC hc hO ho
  · intro r t1 h
    obtain ⟨rC, -, hcases⟩ := construct_cases os K src t r t1 h
    rcases hcases with ⟨e, -, hr, -⟩ | ⟨c, rO, -, -, ⟨e, -, hr, -⟩ | ⟨o, rE, rL, -, -, -, hrun⟩⟩
    · subst hr; simp
    · subst hr; simp
    · have := rangeManifest_shape os K src _ _ _ r t1 hrun
      cases h1 : r.1 <;> cases h2 : r.2 <;> simp_all

/-- C4 on three archives: a malformed container stops `openEpub` after one
fetch, a malformed package after two, and the object built from the
well-formed archive comes without an error. -/
theorem C4_decode_error_aborts_witness :
    (openEpub os0 K0 (some (opened badContainerEntries))).run [] =
      some ((none, some "XML syntax error"), ["META-INF/container.xml"]) ∧
    (openEpub os0 K0 (some (opened badOpfEntries))).run [] =
      some ((none, some "XML syntax error"), ["META-INF/container.xml", "OEBPS/content.opf"]) ∧
    ¬ ((some goodEpub).isSome = true ∧ (none : Option error).isSome = true) :=
  ⟨(C4_decode_error_aborts os0 K0 (Source.archive (some (opened badContainerEntries))) []).1
      (bytes [0]) "XML syntax error" rfl rfl,
   (C4_decode_error_aborts os0 K0 (Source.archive (some (opened badOpfEntries))) []).2.1
      (bytes [60, 99]) _ (bytes [0]) "XML syntax error" rfl rfl rfl rfl,
   (C4_decode_error_aborts os0 K0 (Source.archive (some (opened goodEntries))) []).2.2
      (some goodEpub, none) _ rfl⟩

/-- C5: in both construction functions, once the container and the package
document have decoded.  If the manifest has an item whose id is the spine's
`Toc`, the construction makes exactly one more fetch after the two metadata
fetches, of `path.Join(path.Dir(primary path), href)` for the first such item,
and that fetch never panics.  When that resource is present, the construction
returns an object whose `Ncx` is what decoding the resource leaves in an empty
`Ncx` (always in `openEpub`; in `OpenDir` when the decode returns no error,
and otherwise `OpenDir` returns no object and the decode error); when the
resource cannot be opened, it returns an object with an empty `Ncx`.  If no
item has that id, nothing more is fetched and the construction returns an
object with an empty `Ncx` and a nil error. -/
theorem C5_navigation_from_first_match {S : Schema} (os : OS) (K : Codec S) (src : Source)
    (t : List String) (fdC fdO : ReadCloser) (c : Container) (o : Opf S)
    (hC : (src.init S).fetch os "META-INF/container.xml" = some (Except.ok fdC))
    (hc : K.xmlContainer fdC Container.zero = (c, none))
    (hO : (src.init S).fetch os c.selectRootfile.Rootfile.Path = some (Except.ok fdO))
    (ho : K.xmlOpf fdO (Opf.zero S) = (o, none)) :
    (∀ pre m post, o.Manifest = pre ++ m :: post → (∀ x ∈ pre, x.ID ≠ o.Spine.Toc) →
      m.ID = o.Spine.Toc →
      (∃ rN, (src.init S).fetch os
          (path.Join [path.Dir c.selectRootfile.Rootfile.Path, m.Href]) = some rN) ∧
      (∀ fdN, (src.init S).fetch os
            (path.Join [path.Dir c.selectRootfile.Rootfile.Path, m.Href]) =
              some (Except.ok fdN) →
        ((src.isArchive = true ∨ (K.xmlNcx fdN S.zeroNcx).2 = none) →
          ∃ epub, (construct os K src).run t =
              some ((some epub, none),
                t ++ ["META-INF/container.xml", c.selectRootfile.Rootfile.Path,
                  "META-INF/encryption.xml", "META-INF/license.lcpl",
                  path.Join [path.Dir c.selectRootfile.Rootfile.Path, m.Href]]) ∧
            epub.Ncx = (K.xmlNcx fdN S.zeroNcx).1 ∧
            epub.Container = c.selectRootfile ∧ epub.Opf = o) ∧
        (∀ e, src.isArchive = false → (K.xmlNcx fdN S.zeroNcx).2 = some e →
          (construct os K src).run t =
            some ((none, some e),
              t ++ ["META-INF/container.xml", c.selectRootfile.Rootfile.Path,
                "META-INF/encryption.xml", "META-INF/license.lcpl",
                path.Join [path.Dir c.selectRootfile.Rootfile.Path, m.Href]]))) ∧
      (∀ e, (src.init S).fetch os
            (path.Join [path.Dir c.selectRootfile.Rootfile.Path, m.Href]) =
              some (Except.error e) →
        ∃ epub, (construct os K src).run t =
            some ((some epub, none),
              t ++ ["META-INF/container.xml", c.selectRootfile.Rootfile.Path,
                "META-INF/encryption.xml", "META-INF/license.lcpl",
                path.Join [path.Dir c.selectRootfile.Rootfile.Path, m.Href]]) ∧
          epub.Ncx = S.zeroNcx ∧ epub.Container = c.selectRootfile ∧ epub.Opf = o)) ∧
    ((∀ x ∈ o.Manifest, x.ID ≠ o.Spine.Toc) →
      ∃ epub, (construct os K src).run t =
          some ((some epub, none),
            t ++ ["META-INF/container.xml", c.selectRootfile.Rootfile.Path,
              "META-INF/encryption.xml", "META-INF/license.lcpl"]) ∧
        epub.Ncx = S.zeroNcx ∧ epub.Container = c.selectRootfile ∧ epub.Opf = o) := by
  constructor
  · intro pre m post hl hpre hm
    obtain ⟨epb, rN, hcont, hopf, hncx, -, -, hN, hrun⟩ := construct_run_match os K src t
      (Except.ok fdC) (Except.ok fdO) c o pre post m hC hc hO ho hl hpre hm
    refine ⟨⟨rN, hN⟩, ?_, ?_⟩
    · intro fdN hfd
      rw [hN] at hfd
      cases hfd
      constructor
      · intro hgood
        cases src with
        | archive z =>
          refine ⟨_, hrun, ?_, hcont, hopf⟩
          simp [decodeAt, hncx]
        | dir d =>
          have hnone : (K.xmlNcx fdN S.zeroNcx).2 = none := by
            rcases hgood with h | h
            · simp [Source.isArchive] at h
            · exact h
          have hres : navResult K (Source.dir d) epb m (Except.ok fdN) =
              (some { epb with Ncx := (K.xmlNcx fdN S.zeroNcx).1 }, none) := by
            simp [navResult, decodeAt, hncx, hnone]
          rw [hres] at hrun
          exact ⟨_, hrun, rfl, hcont, hopf⟩
      · intro e harch herr
        cases src with
        | archive z => simp [Source.isArchive] at harch
        | dir d =>
          have hres : navResult K (Source.dir d) epb m (Except.ok fdN) = (none, some e) := by
            simp [navResult, decodeAt, hncx, herr]
          rw [hres] at hrun
          exact hrun
    · intro e hfd
      rw [hN] at hfd
      cases hfd
      cases src with
      | archive z =>
        refine ⟨_, hrun, ?_, hcont, hopf⟩
        simp [decodeAt, hncx]
      | dir d =>
        have hres : navResult K (Source.dir d) epb m (Except.error e) =
            (some { epb with Ncx := S.zeroNcx }, none) := by
          simp [navResult, decodeAt, hncx]
        rw [hres] at hrun
        exact ⟨_, hrun, rfl, hcont, hopf⟩
  · intro hno
    obtain ⟨rE, rL, -, -, hrun⟩ := construct_run_ok os K src t (Except.ok fdC) (Except.ok fdO)
      c o hC hc hO ho
    rw [hrun, rangeManifest_nomatch os K src _ _ _ hno]
    refine ⟨_, rfl, ?_, rfl, rfl⟩
    cases src <;> rfl

/-- C5 on publications whose manifest has two items with the navigation id
`ncx` (`toc.ncx`, then `other.ncx`) after `chap1`.  `openEpub` on the
well-formed archive and `OpenDir` on the directory `pub` make `OEBPS/toc.ncx`
their fifth and last fetch and return an object whose `Ncx` is the decoded
bytes `<n` of that resource.  `openEpub` on the archive that has only a
container and a package fetches `OEBPS/toc.ncx`, cannot open it, and returns
an object with an empty `Ncx`.  `OpenDir` on the directory `book`, whose
navigation id `nav` is the id of no item, makes four fetches and returns an
object with an empty `Ncx`. -/
theorem C5_navigation_from_first_match_witness :
    (∃ epub, (openEpub os0 K0 (some (opened goodEntries))).run [] =
        some ((some epub, none),
          [] ++ ["META-INF/container.xml", "OEBPS/content.opf", "META-INF/encryption.xml",
            "META-INF/license.lcpl", path.Join [path.Dir "OEBPS/content.opf", "toc.ncx"]]) ∧
      epub.Ncx = [60, 110] ∧ epub.Container = goodEpub.Container ∧
      epub.Opf = goodEpub.Opf) ∧
    (∃ epub, (OpenDir os0 K0 "pub").run [] =
        some ((some epub, none),
          [] ++ ["META-INF/container.xml", "OEBPS/content.opf", "META-INF/encryption.xml",
            "META-INF/license.lcpl", path.Join [path.Dir "OEBPS/content.opf", "toc.ncx"]]) ∧
      epub.Ncx = [60, 110] ∧ epub.Container = goodEpub.Container ∧
      epub.Opf = goodEpub.Opf) ∧
    (∃ epub, (openEpub os0 K0 (some (opened packageOnlyEntries))).run [] =
        some ((some epub, none),
          [] ++ ["META-INF/container.xml", "OEBPS/content.opf", "META-INF/encryption.xml",
            "META-INF/license.lcpl", path.Join [path.Dir "OEBPS/content.opf", "toc.ncx"]]) ∧
      epub.Ncx = [] ∧ epub.Container = goodEpub.Container ∧ epub.Opf = goodEpub.Opf) ∧
    (∃ epub, (OpenDir os0 K0 "book").run [] =
        some ((some epub, none),
          [] ++ ["META-INF/container.xml", "OEBPS/content.opf", "META-INF/encryption.xml",
            "META-INF/license.lcpl"]) ∧
      epub.Ncx = [] ∧ epub.Container = goodEpub.Container ∧
      epub.Opf = { goodEpub.Opf with Spine := { Items := ["chap1"], Toc := "nav" } }) ∧
    path.Join [path.Dir "OEBPS/content.opf", "toc.ncx"] = "OEBPS/toc.ncx" :=
  ⟨((C5_navigation_from_first_match os0 K0 (Source.archive (some (opened goodEntries))) []
      (bytes [60, 99]) (bytes [60, 112]) decodedContainer goodEpub.Opf rfl rfl rfl rfl).1
      [{ ID := "chap1", Href := "chapter1.xhtml", MediaType := "application/xhtml+xml" }]
      { ID := "ncx", Href := "toc.ncx", MediaType := "application/x-dtbncx+xml" }
      [{ ID := "ncx", Href := "other.ncx", MediaType := "application/x-dtbncx+xml" }]
      rfl (by decide) rfl).2.1 (bytes [60, 110]) rfl |>.1 (Or.inl rfl),
   ((C5_navigation_from_first_match os0 K0 (Source.dir "pub") []
      (bytes [60, 99]) (bytes [60, 112]) decodedContainer goodEpub.Opf rfl rfl rfl rfl).1
      [{ ID := "chap1", Href := "chapter1.xhtml", MediaType := "application/xhtml+xml" }]
      { ID := "ncx", Href := "toc.ncx", MediaType := "application/x-dtbncx+xml" }
      [{ ID := "ncx", Href := "other.ncx", MediaType := "application/x-dtbncx+xml" }]
      rfl (by decide) rfl).2.1 (bytes [60, 110]) rfl |>.1 (Or.inr rfl),
   ((C5_navigation_from_first_match os0 K0
      (Source.archive (some (opened packageOnlyEntries))) []
      (bytes [60, 99]) (bytes [60, 112]) decodedContainer goodEpub.Opf rfl rfl rfl rfl).1
      [{ ID := "chap1", Href := "chapter1.xhtml", MediaType := "application/xhtml+xml" }]
      { ID := "ncx", Href := "toc.ncx", MediaType := "application/x-dtbncx+xml" }
      [{ ID := "ncx", Href := "other.ncx", MediaType := "application/x-dtbncx+xml" }]
      rfl (by decide) rfl).2.2 _ rfl,
   (C5_navigation_from_first_match os0 K0 (Source.dir "book") []
      (bytes [60, 99]) (bytes [60, 113]) decodedContainer _ rfl rfl rfl rfl).2 (by decide),
   by decide⟩

/-- C6: on an archive-backed object, with `q = path.Join(path.Dir(r), p)`:
if no entry is named exactly `q`, `Open(p)` returns the error whose message
is `can't find file or directory ` followed by `q`, and no stream; if some
entry is named `q`, `Open(p)` returns what opening the first such entry of the
table gives. -/
theorem C6_Open_archive_lookup {S : Schema} (os : OS) (epub : Epub S) (z : ZipReadCloser)
    (p : String) (t : List String) (hdir : epub.directory = "") (hzip : epub.zipFd = some z) :
    ((∀ f ∈ z.File, f.Name ≠ epub.filename p) →
      (epub.Open os p).run t =
        some (Except.error ("can't find file or directory " ++ epub.filename p),
          t ++ [epub.filename p])) ∧
    (∀ pre f post, z.File = pre ++ f :: post → (∀ x ∈ pre, x.Name ≠ epub.filename p) →
      f.Name = epub.filename p →
      (epub.Open os p).run t = some (f.Open z, t ++ [epub.filename p])) := by
  constructor
  · intro h
    simp [Epub.Open, open_run, store, hdir, hzip, openZip_nomatch z _ z.File h]
  · intro pre f post hz hpre hf
    simp [Epub.Open, open_run, store, hdir, hzip, hz, openZip_match z _ pre post f hpre hf]

/-- C6 at the well-formed archive: `missing.xhtml` resolves to
`OEBPS/missing.xhtml`, which no entry has, and the error names it;
`chapter1.xhtml` resolves to `OEBPS/chapter1.xhtml`, which two entries have,
and the first one is opened. -/
theorem C6_Open_archive_lookup_witness :
    (goodEpub.Open os0 "missing.xhtml").run [] =
      some (Except.error "can't find file or directory OEBPS/missing.xhtml",
        ["OEBPS/missing.xhtml"]) ∧
    (goodEpub.Open os0 "chapter1.xhtml").run [] =
      some (Except.ok (bytes [60, 49]), ["OEBPS/chapter1.xhtml"]) :=
  ⟨(C6_Open_archive_lookup os0 goodEpub (opened goodEntries) "missing.xhtml" [] rfl rfl).1
      (by decide),
   (C6_Open_archive_lookup os0 goodEpub (opened goodEntries) "chapter1.xhtml" [] rfl rfl).2
      [{ Name := "mimetype", body := Except.ok (bytes [97]) },
       { Name := "META-INF/container.xml", body := Except.ok (bytes [60, 99]) },
       { Name := "OEBPS/content.opf", body := Except.ok (bytes [60, 112]) },
       { Name := "OEBPS/toc.ncx", body := Except.ok (bytes [60, 110]) }]
      { Name := "OEBPS/chapter1.xhtml", body := Except.ok (bytes [60, 49]) }
      [{ Name := "chapter1.xhtml", body := Except.ok (bytes [60, 50]) },
       { Name := "OEBPS/chapter1.xhtml", body := Except.ok (bytes [60, 51]) }]
      rfl (by decide) rfl⟩

/-- C7 as stated fails: on the object that `OpenEpubReader` builds from the
well-formed archive, whose primary rootfile is `OEBPS/content.opf`,
`GetData("chapter1.xhtml")` returns the bytes of the entry at the archive
root, while `Open("chapter1.xhtml")` opens the entry `OEBPS/chapter1.xhtml`,
which has other bytes. -/
theorem C7_GetData_not_resolved_counterexample :
    (OpenEpubReader os0 K0 (some (opened goodEntries))).run [] =
      some ((some goodEpub, none),
        ["META-INF/container.xml", "OEBPS/content.opf", "META-INF/encryption.xml",
          "META-INF/license.lcpl", "OEBPS/toc.ncx"]) ∧
    (goodEpub.GetData os0 "chapter1.xhtml").run [] =
      some (([60, 50], none), ["chapter1.xhtml"]) ∧
    (goodEpub.Open os0 "chapter1.xhtml").run [] =
      some (Except.ok (bytes [60, 49]), ["OEBPS/chapter1.xhtml"]) ∧
    ioutil.ReadAll (bytes [60, 49]) = ([60, 49], none) := by
  refine ⟨rfl, rfl, rfl, rfl⟩

/-- C7 amended: `GetData(p)` is a raw open followed by a drain: it fetches
what `RawOpen(p)` fetches, the unmodified path `p`, and returns all the bytes
of that stream with its read error; when the open fails it returns no data
and no error. -/
theorem C7_GetData_is_raw_open_then_drain {S : Schema} (os : OS) (epub : Epub S) (p : String)
    (t : List String) :
    (epub.GetData os p).run t =
      ((epub.RawOpen os p).run t).map (fun x =>
        (match x.1 with
          | Except.ok fd => (fd.data, fd.readErr)
          | Except.error _ => ([], none), x.2)) := by
  simp only [Epub.GetData, Epub.RawOpen, StateT.run_bind, open_run]
  cases store os epub.directory epub.zipFd p with
  | none => rfl
  | some r => cases r <;> rfl

/-- C8: the two metadata documents never decide the outcome of a
construction.  First, two constructions by the same function have the same
outcome (an object or not, and which error) whenever their decoders agree on
the container, package and navigation documents and their stores give the
same result for `META-INF/container.xml` and for every name the first
construction fetches for the container, the package and the navigation
document (the fetches of a construction are, in order: container, package,
encryption, license, navigation): whatever the stores hold for the encryption
and license documents, absent or present, and whatever decoding them gives.
Second, when both documents are absent and the container and package decode,
the construction returns, every object it returns has empty `Encryption` and
`LCP`, and it does return an object and a nil error from an archive, and from
a directory unless the resource of the first manifest item with the spine's
navigation id is present and decodes with an error.  Third, every error a
construction returns is the error that decoding the container, the package or
(for `OpenDir`) the navigation document returned. -/
theorem C8_metadata_never_decides_outcome {S : Schema} :
    (∀ (os1 os2 : OS) (K1 K2 : Codec S) (src1 src2 : Source) (t : List String),
      src1.isArchive = src2.isArchive →
      K1.xmlContainer = K2.xmlContainer → K1.xmlOpf = K2.xmlOpf → K1.xmlNcx = K2.xmlNcx →
      (src1.init S).fetch os1 "META-INF/container.xml" =
        (src2.init S).fetch os2 "META-INF/container.xml" →
      (∀ r t1, (construct os1 K1 src1).run [] = some (r, t1) →
        ∀ p ∈ t1.take 2 ++ t1.drop 4,
          (src1.init S).fetch os1 p = (src2.init S).fetch os2 p) →
      outcome ((construct os1 K1 src1).run t) = outcome ((construct os2 K2 src2).run t)) ∧
    (∀ (os : OS) (K : Codec S) (src : Source) (t : List String) (fdC fdO : ReadCloser)
        (c : Container) (o : Opf S) (e1 e2 : error),
      (src.init S).fetch os "META-INF/container.xml" = some (Except.ok fdC) →
      K.xmlContainer fdC Container.zero = (c, none) →
      (src.init S).fetch os c.selectRootfile.Rootfile.Path = some (Except.ok fdO) →
      K.xmlOpf fdO (Opf.zero S) = (o, none) →
      (src.init S).fetch os "META-INF/encryption.xml" = some (Except.error e1) →
      (src.init S).fetch os "META-INF/license.lcpl" = some (Except.error e2) →
      ∃ r t1, (construct os K src).run t = some (r, t1) ∧
        (∀ epub, r.1 = some epub →
          epub.Encryption = S.zeroEncryption ∧ epub.LCP = S.zeroLCP) ∧
        ((src.isArchive = true ∨
            ∀ m, o.Manifest.find? (fun x => decide (x.ID = o.Spine.Toc)) = some m →
              ∀ fdN,
                (src.init S).fetch os
                  (path.Join [path.Dir c.selectRootfile.Rootfile.Path, m.Href]) =
                    some (Except.ok fdN) →
                (K.xmlNcx fdN S.zeroNcx).2 = none) →
          r.1.isSome = true ∧ r.2 = none)) ∧
    (∀ (os : OS) (K : Codec S) (src : Source) (t t1 : List String)
        (r : Option (Epub S) × Option error) (e : error),
      (construct os K src).run t = some (r, t1) → r.2 = some e →
      (∃ fd, (src.init S).fetch os "META-INF/container.xml" = some (Except.ok fd) ∧
          (K.xmlContainer fd Container.zero).2 = some e) ∨
        ∃ p fd, (src.init S).fetch os p = some (Except.ok fd) ∧
          ((K.xmlOpf fd (Opf.zero S)).2 = some e ∨
            (src.isArchive = false ∧ (K.xmlNcx fd S.zeroNcx).2 = some e))) := by
  refine ⟨?_, ?_, ?_⟩
  · intro os1 os2 K1 K2 src1 src2 t hkind hKc hKo hKn hcont hfetched
    exact outcome_congr os1 os2 K1 K2 src1 src2 t hkind hKc hKo hKn hcont hfetched
  rotate_left
  · intro os K src t t1 r e h he
    exact construct_error_origin os K src t t1 r e h he
  · intro os K src t fdC fdO c o e1 e2 hC hc hO ho hE hL
    obtain ⟨rE, rL, hE1, hL1, hrun⟩ := construct_run_ok os K src t (Except.ok fdC)
      (Except.ok fdO) c o hC hc hO ho
    rw [hE] at hE1
    rw [hL] at hL1
    cases hE1
    cases hL1
    rcases manifest_split o.Manifest o.Spine.Toc with hno | ⟨pre, m, post, hl, hpre, hm⟩
    · rw [rangeManifest_nomatch os K src _ _ _ hno] at hrun
      refine ⟨_, _, hrun, ?_, ?_⟩
      · intro epub hepub
        simp only [Option.some.injEq] at hepub
        subst hepub
        exact ⟨rfl, rfl⟩
      · intro _
        exact ⟨rfl, rfl⟩
    · have hfind : o.Manifest.find? (fun x => decide (x.ID = o.Spine.Toc)) = some m := by
        rw [hl]; exact find_first_match o.Spine.Toc pre post m hpre hm
      rw [hl, rangeManifest_match os K src _ pre post m _ hpre hm] at hrun
      obtain ⟨rN, hN⟩ := fetch_isSome os (src.init S) "META-INF/container.xml"
        (path.Join [path.Dir c.selectRootfile.Rootfile.Path, m.Href]) (by simp [hC])
      have hN1 : Epub.fetch os
          { src.init S with
            Container := c.selectRootfile,
            Opf := o,
            Encryption := (decodeAt K.xmlEncryption (Except.error e1) S.zeroEncryption).1,
            LCP := (decodeAt K.jsonLCP (Except.error e2) S.zeroLCP).1 }
          (path.Join [path.Dir c.selectRootfile.Rootfile.Path, m.Href]) = some rN := by
        rw [fetch_eq_store] at hN ⊢
        exact hN
      simp only [Epub.filename, hN1, Option.map_some'] at hrun
      refine ⟨_, _, hrun, ?_, ?_⟩
      · intro epub hepub
        have hf := navResult_fields K src _ m rN epub hepub
        exact ⟨hf.2.2.1, hf.2.2.2.1⟩
      · intro hnav
        have hout := navResult_outcome K src
          { src.init S with
            Container := c.selectRootfile,
            Opf := o,
            Encryption := (decodeAt K.xmlEncryption (Except.error e1) S.zeroEncryption).1,
            LCP := (decodeAt K.jsonLCP (Except.error e2) S.zeroLCP).1 } m rN
        have hzero : ({ src.init S with
            Container := c.selectRootfile,
            Opf := o,
            Encryption := (decodeAt K.xmlEncryption (Except.error e1) S.zeroEncryption).1,
            LCP := (decodeAt K.jsonLCP (Except.error e2) S.zeroLCP).1 } : Epub S).Ncx =
              S.zeroNcx := by
          cases src <;> rfl
        rw [hzero] at hout
        have hgood : (if src.isArchive = true then ((true, none) : Bool × Option error)
            else if (decodeAt K.xmlNcx rN S.zeroNcx).2 ≠ none then
              (false, (decodeAt K.xmlNcx rN S.zeroNcx).2)
            else (true, none)) = (true, none) := by
          rcases hnav with harch | hdec
          · simp [harch]
          · have : (decodeAt K.xmlNcx rN S.zeroNcx).2 = none := by
              cases rN with
              | error e => rfl
              | ok fdN => exact hdec m hfind fdN hN
            simp [this]
        rw [hgood] at hout
        simp only [Prod.mk.injEq] at hout
        exact hout

/-- C8 on the directory `pub`, without metadata, against the same directory
with a malformed encryption document and a license document added, decoded by
other metadata decoders, and likewise on the well-formed archive: the two
constructions have the same outcome.  `OpenDir` on `pub` without metadata
returns an object with a nil error and empty `Encryption` and `LCP`: its first
manifest item with the navigation id is `toc.ncx`, which decodes; the item
`chap1` before it, whose resource would not decode, does not matter.  The
error that `OpenDir` returns on the directory `bad` is a decode error of one
of the three documents. -/
theorem C8_metadata_never_decides_outcome_witness :
    (outcome ((construct os0 K0 (Source.dir "pub")).run []) =
      outcome ((construct os1 K1 (Source.dir "pub")).run [])) ∧
    (outcome ((construct os0 K0 (Source.archive (some (opened goodEntries)))).run []) =
      outcome ((construct os0 K1 (Source.archive (some (opened drmEntries)))).run [])) ∧
    (∃ r t1, (construct os0 K0 (Source.dir "pub")).run [] = some (r, t1) ∧
      (∀ epub, r.1 = some epub →
        epub.Encryption = S0.zeroEncryption ∧ epub.LCP = S0.zeroLCP) ∧
      r.1.isSome = true ∧ r.2 = none) ∧
    ((∃ fd, ((Source.dir "bad").init S0).fetch os0 "META-INF/container.xml" =
          some (Except.ok fd) ∧
        (K0.xmlContainer fd Container.zero).2 = some "XML syntax error") ∨
      ∃ p fd, ((Source.dir "bad").init S0).fetch os0 p = some (Except.ok fd) ∧
        ((K0.xmlOpf fd (Opf.zero S0)).2 = some "XML syntax error" ∨
          ((Source.dir "bad").isArchive = false ∧
            (K0.xmlNcx fd S0.zeroNcx).2 = some "XML syntax error"))) :=
  ⟨C8_metadata_never_decides_outcome.1 os0 os1 K0 K1 (Source.dir "pub") (Source.dir "pub")
      [] rfl rfl rfl rfl rfl
      (by
        intro r t1 h
        have hrun : (construct os0 K0 (Source.dir "pub")).run [] =
            some ((some { goodEpub with zipFd := none, directory := "pub", NcxPath := "" },
                none),
              ["META-INF/container.xml", "OEBPS/content.opf", "META-INF/encryption.xml",
                "META-INF/license.lcpl", "OEBPS/toc.ncx"]) := rfl
        rw [hrun] at h
        cases h
        intro p hp
        simp only [List.take, List.drop, List.cons_append, List.nil_append, List.mem_cons,
          List.mem_singleton, List.not_mem_nil, or_false] at hp
        rcases hp with rfl | rfl | rfl <;> rfl),
   C8_metadata_never_decides_outcome.1 os0 os0 K0 K1
      (Source.archive (some (opened goodEntries))) (Source.archive (some (opened drmEntries)))
      [] rfl rfl rfl rfl rfl
      (by
        intro r t1 h
        have hrun : (construct os0 K0 (Source.archive (some (opened goodEntries)))).run [] =
            some ((some goodEpub, none),
              ["META-INF/container.xml", "OEBPS/content.opf", "META-INF/encryption.xml",
                "META-INF/license.lcpl", "OEBPS/toc.ncx"]) := rfl
        rw [hrun] at h
        cases h
        intro p hp
        simp only [List.take, List.drop, List.cons_append, List.nil_append, List.mem_cons,
          List.mem_singleton, List.not_mem_nil, or_false] at hp
        rcases hp with rfl | rfl | rfl <;> rfl),
   (by
      obtain ⟨r, t1, hrun, hzero, hsucc⟩ :=
        C8_metadata_never_decides_outcome.2.1 os0 K0 (Source.dir "pub")
          [] (bytes [60, 99]) (bytes [60, 112]) decodedContainer goodEpub.Opf _ _
          rfl rfl rfl rfl rfl rfl
      refine ⟨r, t1, hrun, hzero, hsucc (Or.inr ?_)⟩
      intro m hm fdN hf
      have hfirst : goodEpub.Opf.Manifest.find?
          (fun x => decide (x.ID = goodEpub.Opf.Spine.Toc)) =
            some { ID := "ncx", Href := "toc.ncx",
                   MediaType := "application/x-dtbncx+xml" } := rfl
      rw [hfirst] at hm
      cases hm
      have hres : ((Source.dir "pub").init S0).fetch os0
          (path.Join [path.Dir decodedContainer.selectRootfile.Rootfile.Path, "toc.ncx"]) =
            some (Except.ok (bytes [60, 110])) := rfl
      rw [hres] at hf
      cases hf
      rfl),
   C8_metadata_never_decides_outcome.2.2 os0 K0 (Source.dir "bad") []
      ["META-INF/container.xml", "OEBPS/content.opf", "META-INF/encryption.xml",
        "META-INF/license.lcpl", "OEBPS/toc.ncx"]
      (none, some "XML syntax error") "XML syntax error" rfl rfl⟩

/-- C9, the code at a failing input: `OpenEpub` succeeds on the well-formed
archive `book.epub`, but the deferred `zipFile.Close()` has run when it
returns, so the handle that the returned object owns (the one `ZipReader`
returns) is closed and opening an entry that exists fails.  `OpenEpubReader`
on the same entries leaves the handle open. -/
theorem C9_OpenEpub_returns_closed_handle :
    (∃ epub t, (OpenEpub os0 K0 "book.epub").run [] = some ((some epub, none), t) ∧
      epub.ZipReader = some { name := "book.epub", File := goodEntries, closed := true } ∧
      (epub.Open os0 "chapter1.xhtml").run [] =
        some (Except.error "read book.epub: file already closed",
          ["OEBPS/chapter1.xhtml"])) ∧
    (∃ epub t, (OpenEpubReader os0 K0 (some (opened goodEntries))).run [] =
        some ((some epub, none), t) ∧
      epub.ZipReader = some { name := "book.epub", File := goodEntries, closed := false } ∧
      (epub.Open os0 "chapter1.xhtml").run [] =
        some (Except.ok (bytes [60, 49]), ["OEBPS/chapter1.xhtml"])) :=
  ⟨⟨{ goodEpub with
        zipFd := some { name := "book.epub", File := goodEntries, closed := true } },
      _, rfl, rfl, rfl⟩,
   ⟨goodEpub, _, rfl, rfl, rfl⟩⟩

/-- C10: for a publication whose container and package documents decode,
whose manifest has an item with the spine's navigation id, and whose
navigation resource is present but decodes with the error `e`: `openEpub` and
`OpenEpubReader` drop `e` and return an object and a nil error, while `OpenDir`
returns no object and `e`. -/
theorem C10_entry_points_disagree_on_navigation_error {S : Schema} (os : OS) (K : Codec S)
    (src : Source) (t : List String) (fdC fdO fdN : ReadCloser) (c : Container) (o : Opf S)
    (pre post : List Manifest) (m : Manifest) (n : S.Ncx) (e : error)
    (hC : (src.init S).fetch os "META-INF/container.xml" = some (Except.ok fdC))
    (hc : K.xmlContainer fdC Container.zero = (c, none))
    (hO : (src.init S).fetch os c.selectRootfile.Rootfile.Path = some (Except.ok fdO))
    (ho : K.xmlOpf fdO (Opf.zero S) = (o, none))
    (hl : o.Manifest = pre ++ m :: post) (hpre : ∀ x ∈ pre, x.ID ≠ o.Spine.Toc)
    (hm : m.ID = o.Spine.Toc)
    (hN : (src.init S).fetch os (path.Join [path.Dir c.selectRootfile.Rootfile.Path, m.Href]) =
      some (Except.ok fdN))
    (hn : K.xmlNcx fdN S.zeroNcx = (n, some e)) :
    (∀ zipFile, src = Source.archive zipFile →
      ∃ epub, (openEpub os K zipFile).run t =
          some ((some epub, none),
            t ++ ["META-INF/container.xml", c.selectRootfile.Rootfile.Path,
              "META-INF/encryption.xml", "META-INF/license.lcpl",
              path.Join [path.Dir c.selectRootfile.Rootfile.Path, m.Href]]) ∧
        (OpenEpubReader os K zipFile).run t = (openEpub os K zipFile).run t ∧
        epub.Container = c.selectRootfile ∧ epub.Opf = o ∧ epub.Ncx = n ∧
        epub.zipFd = zipFile) ∧
    (∀ filename, src = Source.dir filename →
      (OpenDir os K filename).run t =
        some ((none, some e),
          t ++ ["META-INF/container.xml", c.selectRootfile.Rootfile.Path,
            "META-INF/encryption.xml", "META-INF/license.lcpl",
            path.Join [path.Dir c.selectRootfile.Rootfile.Path, m.Href]])) := by
  obtain ⟨epb, rN, hcont, hopf, hncx, hzip, -, hN1, hrun⟩ := construct_run_match os K src t
    (Except.ok fdC) (Except.ok fdO) c o pre post m hC hc hO ho hl hpre hm
  rw [hN] at hN1
  cases hN1
  constructor
  · intro zipFile hsrc
    subst hsrc
    refine ⟨_, hrun, rfl, hcont, hopf, ?_, hzip⟩
    simp [decodeAt, hncx, hn]
  · intro filename hsrc
    subst hsrc
    exact hrun.trans (by simp [navResult, decodeAt, hncx, hn])

/-- C10 on the archive and on the directory whose navigation document
`OEBPS/toc.ncx` is malformed: `openEpub` returns an object and no error,
`OpenDir` no object and the decode error. -/
theorem C10_entry_points_disagree_on_navigation_error_witness :
    (∃ epub, (openEpub os0 K0 (some (opened badNcxEntries))).run [] =
        some ((some epub, none),
          [] ++ ["META-INF/container.xml", "OEBPS/content.opf", "META-INF/encryption.xml",
            "META-INF/license.lcpl", path.Join [path.Dir "OEBPS/content.opf", "toc.ncx"]]) ∧
      (OpenEpubReader os0 K0 (some (opened badNcxEntries))).run [] =
        (openEpub os0 K0 (some (opened badNcxEntries))).run [] ∧
      epub.Container = goodEpub.Container ∧ epub.Opf = goodEpub.Opf ∧ epub.Ncx = [] ∧
      epub.zipFd = some (opened badNcxEntries)) ∧
    (OpenDir os0 K0 "bad").run [] =
      some ((none, some "XML syntax error"),
        [] ++ ["META-INF/container.xml", "OEBPS/content.opf", "META-INF/encryption.xml",
          "META-INF/license.lcpl", path.Join [path.Dir "OEBPS/content.opf", "toc.ncx"]]) :=
  ⟨(C10_entry_points_disagree_on_navigation_error os0 K0
      (Source.archive (some (opened badNcxEntries))) [] (bytes [60, 99]) (bytes [60, 112])
      (bytes [0]) decodedContainer goodEpub.Opf
      [{ ID := "chap1", Href := "chapter1.xhtml", MediaType := "application/xhtml+xml" }]
      [{ ID := "ncx", Href := "other.ncx", MediaType := "application/x-dtbncx+xml" }]
      { ID := "ncx", Href := "toc.ncx", MediaType := "application/x-dtbncx+xml" }
      [] "XML syntax error" rfl rfl rfl rfl rfl (by decide) rfl rfl rfl).1 _ rfl,
   (C10_entry_points_disagree_on_navigation_error os0 K0
      (Source.dir "bad") [] (bytes [60, 99]) (bytes [60, 112])
      (bytes [0]) decodedContainer goodEpub.Opf
      [{ ID := "chap1", Href := "chapter1.xhtml", MediaType := "application/xhtml+xml" }]
      [{ ID := "ncx", Href := "other.ncx", MediaType := "application/x-dtbncx+xml" }]
      { ID := "ncx", Href := "toc.ncx", MediaType := "application/x-dtbncx+xml" }
      [] "XML syntax error" rfl rfl rfl rfl rfl (by decide) rfl rfl rfl).2 _ rfl⟩

end epub
